import Mathlib

/-!
Shallow embedding of the WealthSystem stock-analysis engine.

Sources:
* `src/python_analysis/analysis.py` (class `StockAnalyzer`) — suffix `Py` below;
* `src/Stock-Analysis-Extension/modules/stock_analyzer.py` (class `StockAnalyzer`)
  — suffix `Ext` below.

Python floats are modelled as exact rationals (`ℚ`).  Values that the source
obtains from the `ta` / `numpy` libraries and that are irrational in general
(RSI, MACD, Bollinger bands, the annualized standard deviation of daily
returns, and the standard deviation of the four dimension scores) are supplied
through an explicit environment record `TaEnv`; every branch the engine takes
on those values is embedded faithfully.  Definitions whose name ends in
`Claim` are NOT translated from the source: they follow the words of the
specification / claim, for refinement comparison against the source embedding.
-/

namespace WealthSystem

/-- Banker's rounding of a rational to the nearest integer, ties to the even
neighbour, matching Python's builtin `round` on exactly representable
values. -/
def roundHalfEven (q : ℚ) : ℤ :=
  let f := Int.floor q
  let r := q - f
  if r < 1/2 then f
  else if 1/2 < r then f + 1
  else if Even f then f else f + 1

/-- Python `round(x, 2)`: round to two decimal places, ties to even. -/
def round2 (q : ℚ) : ℚ := (roundHalfEven (100 * q) : ℚ) / 100

/-- Arithmetic mean of a list of rationals (`np.mean`); `0` on `[]`
(the sources never take a mean of an empty collection). -/
def qmean (l : List ℚ) : ℚ := l.sum / l.length

/-- Population variance of a list of rationals; `np.std(l)` is its square
root. -/
def qvariance (l : List ℚ) : ℚ := (l.map (fun x => (x - qmean l)^2)).sum / l.length

/-- Last element of a list, `0` for `[]` (`iloc[-1]`, used only under
nonemptiness guards mirroring the source). -/
def lastD (l : List ℚ) : ℚ := l.getLastD 0

/-- Element `k` positions from the end (`iloc[-k]`), `0` when out of range. -/
def fromEnd (l : List ℚ) (k : ℕ) : ℚ := l.getD (l.length - k) 0

/-- Mean of the last `n` elements (`series.tail(n).mean()`; pandas `tail`
takes `min n (length l)` elements). -/
def tailMean (l : List ℚ) (n : ℕ) : ℚ := qmean (l.drop (l.length - n))

/-- Day-over-day fractional changes (`series.pct_change()` without its leading
NaN). -/
def pctChanges (l : List ℚ) : List ℚ := List.zipWith (fun a b => (b - a) / a) l l.tail

/-- Number of positive entries among the last `k` day-over-day changes
(`(series.pct_change().tail(k) > 0).sum()`; the leading NaN of `pct_change`
is not positive, so only genuine changes can count). -/
def posCountLast (l : List ℚ) (k : ℕ) : ℕ :=
  ((pctChanges l).drop ((pctChanges l).length - k)).countP (fun x => decide (0 < x))

/-- Percentage return from `past` to `cur` (`(cur - past) / past * 100`).
The sources evaluate this on (positive) close prices; `past = 0`, an IEEE
infinity in the source, is modelled as `0` here and never exercised by a
claim. -/
def pctReturn (cur past : ℚ) : ℚ := (cur - past) / past * 100

/-- One OHLCV bar of a price series. -/
structure Bar where
  bopen : ℚ := 0
  bhigh : ℚ := 0
  blow : ℚ := 0
  close : ℚ := 0
  volume : ℚ := 0
deriving DecidableEq

/-- FundamentalSnapshot: the named optional fields both modules read with
`fundamentals.get(...)`; `none` models an absent key or a `None` value. -/
structure Fundamentals where
  pe_ratio : Option ℚ := none
  price_to_book : Option ℚ := none
  return_on_equity : Option ℚ := none
  debt_to_equity : Option ℚ := none
  profit_margin : Option ℚ := none
  revenue_growth : Option ℚ := none
  current_ratio : Option ℚ := none
  market_cap : Option ℚ := none
  sector : Option String := none
  analyst_rating : Option String := none
deriving DecidableEq

/-- Environment of library-computed indicator values.  `rsi` is the latest
14-period RSI (`none` when NaN or, for `analysis.py`, when the `ta` library
is unavailable, that is `hasTA = false`); `macd` is the latest and previous
`macd_diff` value; `bb` is the latest `(upper, lower)` Bollinger band pair;
`vol` is the annualized standard deviation of daily returns (decimal), used
by the code only when at least 30 bars are present; `sigma` is the population
standard deviation of the four dimension scores (used by
`analysis.py._calculate_confidence`). -/
structure TaEnv where
  hasTA : Bool := true
  rsi : Option ℚ := none
  macd : Option (ℚ × ℚ) := none
  bb : Option (ℚ × ℚ) := none
  vol : ℚ := 0
  sigma : ℚ := 0
deriving DecidableEq

/-- Discrete recommendation labels. -/
inductive Recommendation where
  | strongBuy
  | buy
  | hold
  | sell
  | strongSell
deriving DecidableEq, BEq

/-- Position of a recommendation on the bearish-to-bullish scale. -/
def Recommendation.rank : Recommendation → ℕ
  | .strongSell => 0
  | .sell => 1
  | .hold => 2
  | .buy => 3
  | .strongBuy => 4

/-- Discrete risk labels. -/
inductive RiskLevel where
  | low
  | medium
  | high
  | veryHigh
deriving DecidableEq, BEq

/-- Position of a risk label on the low-to-high scale. -/
def RiskLevel.rank : RiskLevel → ℕ
  | .low => 0
  | .medium => 1
  | .high => 2
  | .veryHigh => 3

/-- Threshold map from overall score to recommendation; identical in
`analysis.py._get_recommendation` (lines 529-540) and
`stock_analyzer.py._get_recommendation` (lines 733-744). -/
def get_recommendation (s : ℚ) : Recommendation :=
  if 80 ≤ s then .strongBuy
  else if 65 ≤ s then .buy
  else if 35 ≤ s then .hold
  else if 20 ≤ s then .sell
  else .strongSell

/-- Default-weight aggregation of the four dimension scores
(fundamental 0.40, technical 0.30, momentum 0.20, sentiment 0.10). -/
def overallScore (f t m s : ℚ) : ℚ := 0.4 * f + 0.3 * t + 0.2 * m + 0.1 * s

/-! ### Fundamental scoring (shared breakpoint tables)

The five tables below are identical in both modules. -/

/-- P/E sub-score table. -/
def peScore (v : ℚ) : ℚ := if v < 15 then 85 else if v < 25 then 70 else if v < 35 then 45 else 25

/-- Price-to-book sub-score table. -/
def pbScore (v : ℚ) : ℚ := if v < 1.5 then 80 else if v < 3 then 60 else if v < 5 then 40 else 20

/-- Return-on-equity sub-score table; a value below 1 is interpreted as a
decimal fraction and scaled by 100 (`roe * 100 if roe < 1 else roe`). -/
def roeScore (v : ℚ) : ℚ :=
  if 20 < (if v < 1 then v * 100 else v) then 90
  else if 15 < (if v < 1 then v * 100 else v) then 75
  else if 10 < (if v < 1 then v * 100 else v) then 60
  else 30

/-- Debt-to-equity sub-score table. -/
def deScore (v : ℚ) : ℚ := if v < 0.3 then 85 else if v < 0.6 then 70 else if v < 1 then 50 else 25

/-- Profit-margin sub-score table (same decimal/percentage handling as
`roeScore`). -/
def pmScore (v : ℚ) : ℚ :=
  if 20 < (if v < 1 then v * 100 else v) then 90
  else if 10 < (if v < 1 then v * 100 else v) then 75
  else if 5 < (if v < 1 then v * 100 else v) then 60
  else 30

/-- Revenue-growth sub-score table (extension module only). -/
def rgScoreExt (v : ℚ) : ℚ :=
  if 20 < (if v < 1 then v * 100 else v) then 90
  else if 10 < (if v < 1 then v * 100 else v) then 75
  else if 5 < (if v < 1 then v * 100 else v) then 60
  else if 0 < (if v < 1 then v * 100 else v) then 45
  else 20

/-- Current-ratio sub-score table (extension module only). -/
def crScoreExt (v : ℚ) : ℚ := if 2.5 < v then 80 else if 1.5 < v then 70 else if 1 < v then 50 else 20

/-- Factor map built by `analysis.py.calculate_fundamental_score`
(lines 174-277): a field that is absent, or fails the source's truthiness /
positivity test, contributes nothing.  `pe`/`pb` require `pe and pe > 0`
(truthy and positive, equivalent to `0 < v`); `roe`/`pm` require truthiness
(`v ≠ 0`); `de` only requires the key to be present (`is not None`). -/
def fundFactorsPy (f : Fundamentals) : List (String × ℚ) :=
  (match f.pe_ratio with
   | some v => if 0 < v then [("pe_score", peScore v)] else []
   | none => []) ++
  (match f.price_to_book with
   | some v => if 0 < v then [("pb_score", pbScore v)] else []
   | none => []) ++
  (match f.return_on_equity with
   | some v => if v ≠ 0 then [("roe_score", roeScore v)] else []
   | none => []) ++
  (match f.debt_to_equity with
   | some v => [("de_score", deScore v)]
   | none => []) ++
  (match f.profit_margin with
   | some v => if v ≠ 0 then [("pm_score", pmScore v)] else []
   | none => [])

/-- Fundamental dimension score of `analysis.py`: the unrounded mean of the
computed sub-scores, defaulting to 50.0 when none were computed. -/
def fundScorePy (f : Fundamentals) : ℚ :=
  if (fundFactorsPy f).map Prod.snd = [] then 50
  else qmean ((fundFactorsPy f).map Prod.snd)

/-- Factor map built by `stock_analyzer.py._analyze_fundamentals`
(lines 189-339): every one of the seven fields always receives an entry; a
field that is absent or fails its truthiness/positivity test receives a
default sub-score (40 for `pe_score`, 50 for all others). -/
def fundFactorsExt (f : Fundamentals) : List (String × ℚ) :=
  [("pe_score", match f.pe_ratio with
     | some v => if 0 < v then peScore v else 40
     | none => 40),
   ("pb_score", match f.price_to_book with
     | some v => if 0 < v then pbScore v else 50
     | none => 50),
   ("roe_score", match f.return_on_equity with
     | some v => if v ≠ 0 then roeScore v else 50
     | none => 50),
   ("de_score", match f.debt_to_equity with
     | some v => deScore v
     | none => 50),
   ("pm_score", match f.profit_margin with
     | some v => if v ≠ 0 then pmScore v else 50
     | none => 50),
   ("rg_score", match f.revenue_growth with
     | some v => if v ≠ 0 then rgScoreExt v else 50
     | none => 50),
   ("cr_score", match f.current_ratio with
     | some v => if v ≠ 0 then crScoreExt v else 50
     | none => 50)]

/-- Fundamental dimension score of the extension module: rounded mean of the
seven factor entries. -/
def fundScoreExt (f : Fundamentals) : ℚ :=
  round2 (qmean ((fundFactorsExt f).map Prod.snd))

/-! ### Technical scoring -/

/-- Moving-average sub-score of `stock_analyzer.py._analyze_technical`
(lines 381-392); the source uses Python's chained comparisons
`current_price > sma_20 > sma_50` and `current_price < sma_20 < sma_50`. -/
def maScoreChain (p m20 m50 : ℚ) : ℚ :=
  if p > m20 ∧ m20 > m50 then 80
  else if p > m20 then 65
  else if p < m20 ∧ m20 < m50 then 20
  else 45

/-- Modelled from the claim/spec wording: 80 when the close is above BOTH
moving averages, 65 when above the short one only, 20 when below both,
45 otherwise.  For comparison with `maScoreChain`. -/
def maScoreClaim (p m20 m50 : ℚ) : ℚ :=
  if p > m20 ∧ p > m50 then 80
  else if p > m20 then 65
  else if p < m20 ∧ p < m50 then 20
  else 45

/-- RSI sub-score of the extension module (`40 <= rsi <= 60` scores 60). -/
def rsiScoreExt (r : ℚ) : ℚ :=
  if r < 30 then 75
  else if 70 < r then 25
  else if 40 ≤ r ∧ r ≤ 60 then 60
  else 50

/-- RSI sub-score of `analysis.py` (`40 < rsi < 60` scores 50, then
`rsi < 50` scores 60, else 40). -/
def rsiScorePy (r : ℚ) : ℚ :=
  if r < 30 then 80
  else if 70 < r then 20
  else if 40 < r ∧ r < 60 then 50
  else if r < 50 then 60
  else 40

/-- MACD sub-score of the extension module, on the latest and previous
`macd_diff` values. -/
def macdScoreExt (cur prev : ℚ) : ℚ :=
  if 0 < cur ∧ prev < cur then 75
  else if 0 < cur then 60
  else if cur < 0 ∧ cur < prev then 25
  else 40

/-- Bollinger-band sub-score of the extension module on the latest close and
band pair.  When `upper = lower` the source's band position is an IEEE
infinity (25 / 75) or NaN (50, both comparisons false); those cases are
spelled out here. -/
def bbScoreExt (c upper lower : ℚ) : ℚ :=
  if upper = lower then
    (if lower < c then 25 else if c < lower then 75 else 50)
  else
    (if (c - lower) / (upper - lower) < 0.2 then 75
     else if 0.8 < (c - lower) / (upper - lower) then 25
     else 50)

/-- Volume sub-score of the extension module: mean of the last 5 volumes
against 1.5x / 0.5x the mean of the last 20. -/
def volScoreExt (recent avg : ℚ) : ℚ :=
  if avg * 1.5 < recent then 70 else if recent < avg * 0.5 then 40 else 55

/-- Golden-cross sub-score of `analysis.py` (`ma50 > ma200` scores 70,
else 30). -/
def goldenCrossScorePy (m50 m200 : ℚ) : ℚ := if m200 < m50 then 70 else 30

/-- Price-trend sub-score of `analysis.py` (chained comparisons
`current_price > ma20 > ma50` / `current_price < ma20 < ma50`). -/
def trendScorePy (p m20 m50 : ℚ) : ℚ :=
  if p > m20 ∧ m20 > m50 then 75
  else if p < m20 ∧ m20 < m50 then 25
  else 50

/-- Score factors of `analysis.py.calculate_technical_score` (lines 279-375)
past the under-20-bars guard: the moving-average pair is computed only when
at least 200 bars are present; the RSI factor only when the `ta` library is
available and it produced a value.  The volume block of this function adds no
score factor. -/
def techFactorsPy (closes : List ℚ) (env : TaEnv) : List ℚ :=
  (if 200 ≤ closes.length then
     [goldenCrossScorePy (tailMean closes 50) (tailMean closes 200),
      trendScorePy (lastD closes) (tailMean closes 20) (tailMean closes 50)]
   else []) ++
  (match (if env.hasTA then env.rsi else none) with
   | some r => [rsiScorePy r]
   | none => [])

/-- Indicator-columns that `analysis.py.calculate_technical_score` assigns
into the CALLER's DataFrame (`price_df['ma20'] = ...` on lines 299-301 and
`price_df['rsi'] = ...` on line 336): nothing below 20 bars (early return),
the three moving-average columns from 200 bars on, and the `rsi` column
whenever the `ta` library is importable. -/
def techAddedColsPy (hasTA : Bool) (n : ℕ) : List String :=
  if n < 20 then []
  else (if 200 ≤ n then ["ma20", "ma50", "ma200"] else []) ++
    (if hasTA then ["rsi"] else [])

/-- Columns added to the caller's DataFrame by the extension's
`_analyze_technical`: none, because line 359 works on `price_df.copy()`. -/
def techAddedColsExt (_n : ℕ) : List String := []

/-- Result of `analysis.py.calculate_technical_score`: the score, the number
of entries of the `indicators` map (`ma_position`, `rsi`, `volume_ratio`),
the stored RSI value, and the columns added to the caller's frame. -/
structure TechOutPy where
  score : ℚ
  nInd : ℕ
  rsiInd : Option ℚ
  addedCols : List String
deriving DecidableEq

/-- Embedding of `analysis.py.calculate_technical_score`. -/
def techOutPy (closes volumes : List ℚ) (env : TaEnv) : TechOutPy :=
  if closes.length < 20 then ⟨50, 0, none, []⟩
  else
    let rsiVal : Option ℚ := if env.hasTA then env.rsi else none
    let fs := techFactorsPy closes env
    { score := if fs = [] then 50 else qmean fs
      nInd := (if 200 ≤ closes.length then 1 else 0) + (if rsiVal.isSome then 1 else 0) +
        (if 0 < tailMean volumes 60 then 1 else 0)
      rsiInd := rsiVal
      addedCols := techAddedColsPy env.hasTA closes.length }

/-- Score factors of the extension's `_analyze_technical` (lines 341-487):
the `sma_20`/`sma_50` values are NaN below their window, the RSI / MACD /
Bollinger factors require the corresponding library value, the MACD factor
additionally requires more than one row, and the volume factor at least 20
rows. -/
def techFactorsExt (closes volumes : List ℚ) (env : TaEnv) : List ℚ :=
  (if 20 ≤ closes.length ∧ 50 ≤ closes.length then
     [maScoreChain (lastD closes) (tailMean closes 20) (tailMean closes 50)]
   else []) ++
  (match env.rsi with
   | some r => [rsiScoreExt r]
   | none => []) ++
  (match env.macd with
   | some pr => if 1 < closes.length then [macdScoreExt pr.1 pr.2] else []
   | none => []) ++
  (match env.bb with
   | some pr => [bbScoreExt (lastD closes) pr.1 pr.2]
   | none => []) ++
  (if 20 ≤ closes.length then
     [volScoreExt (tailMean volumes 5) (tailMean volumes 20)]
   else [])

/-- Result of the extension's `_analyze_technical`: the (rounded) score and
the RSI entry of its `indicators` map (stored rounded to 2 decimals). -/
structure TechOutExt where
  score : ℚ
  rsiInd : Option ℚ
deriving DecidableEq

/-- Embedding of the extension's `_analyze_technical`; an empty frame raises
`IndexError` at `df.iloc[-1]`, which the source catches, returning the
neutral default. -/
def techOutExt (closes volumes : List ℚ) (env : TaEnv) : TechOutExt :=
  if closes.isEmpty then ⟨50, none⟩
  else
    let fs := techFactorsExt closes volumes env
    ⟨if fs = [] then 50 else round2 (qmean fs), env.rsi.map round2⟩

/-! ### Momentum scoring -/

/-- 1-month (20-bar) return sub-score table of `analysis.py`. -/
def mom1mPy (r : ℚ) : ℚ :=
  if 10 < r then 80 else if 5 < r then 65 else if 0 < r then 55
  else if -5 < r then 45 else 20

/-- 3-month (60-bar) return sub-score table of `analysis.py`. -/
def mom3mPy (r : ℚ) : ℚ :=
  if 20 < r then 85 else if 10 < r then 70 else if 0 < r then 55 else 30

/-- Return sub-scores of `analysis.py.calculate_momentum_score` before the
volatility block (the 20-bar factor always present past the guard, the
60-bar factor from 60 bars on). -/
def momBaseFactorsPy (closes : List ℚ) : List ℚ :=
  [mom1mPy (pctReturn (lastD closes) (fromEnd closes 20))] ++
  (if 60 ≤ closes.length then
     [mom3mPy (pctReturn (lastD closes) (fromEnd closes 60))]
   else [])

/-- All score factors of `analysis.py.calculate_momentum_score`
(lines 377-453): when at least 30 bars are present and the annualized
volatility exceeds 0.50, the source appends
`score_factors[-1] * 0.8 if score_factors else 40` (a degraded copy of the
most recent sub-score); volatility below 0.25 only appends a note. -/
def momFactorsPy (closes : List ℚ) (vol : ℚ) : List ℚ :=
  momBaseFactorsPy closes ++
  (if 30 ≤ closes.length ∧ 0.5 < vol then
     [if momBaseFactorsPy closes = [] then 40 else (momBaseFactorsPy closes).getLastD 0 * 0.8]
   else [])

/-- Result of `analysis.py.calculate_momentum_score`: the (unrounded) score
and the size of the `metrics` map (`1m_return`, `3m_return`,
`volatility`). -/
structure MomOutPy where
  score : ℚ
  nMet : ℕ
deriving DecidableEq

/-- Embedding of `analysis.py.calculate_momentum_score`; `vol` is the
annualized standard deviation of daily returns the source computes when at
least 30 bars are present. -/
def momOutPy (closes : List ℚ) (vol : ℚ) : MomOutPy :=
  if closes.length < 20 then ⟨50, 0⟩
  else
    let fs := momFactorsPy closes vol
    ⟨if fs = [] then 50 else qmean fs,
     1 + (if 60 ≤ closes.length then 1 else 0) + (if 30 ≤ closes.length then 1 else 0)⟩

/-- 5-day return sub-score table of the extension module. -/
def mom5Ext (r : ℚ) : ℚ :=
  if 5 < r then 80 else if 2 < r then 65 else if r < -5 then 20
  else if r < -2 then 35 else 50

/-- 20-day return sub-score table of the extension module. -/
def mom20Ext (r : ℚ) : ℚ :=
  if 10 < r then 85 else if 5 < r then 70 else if r < -10 then 15
  else if r < -5 then 30 else 50

/-- 60-day return sub-score table of the extension module. -/
def mom60Ext (r : ℚ) : ℚ :=
  if 20 < r then 90 else if 10 < r then 75 else if r < -20 then 10
  else if r < -10 then 25 else 50

/-- Volatility sub-score of the extension module; `volPct` is the annualized
volatility in percent and `r20` the raw 20-day return, whose metric entry
(rounded to 2 decimals) is what `metrics.get('momentum_20d', 0) > 0`
tests. -/
def momVolScoreExt (volPct r20 : ℚ) : ℚ :=
  if volPct < 20 ∧ 0 < round2 r20 then 70
  else if 50 < volPct then 30
  else 50

/-- Score factors of the extension's `_analyze_momentum` (lines 489-609)
past the under-20-bars guard. -/
def momFactorsExt (closes : List ℚ) (volPct : ℚ) : List ℚ :=
  [mom5Ext (pctReturn (lastD closes) (fromEnd closes 5)),
   mom20Ext (pctReturn (lastD closes) (fromEnd closes 20))] ++
  (if 60 ≤ closes.length then
     [mom60Ext (pctReturn (lastD closes) (fromEnd closes 60))]
   else []) ++
  (if 30 ≤ closes.length then
     [momVolScoreExt volPct (pctReturn (lastD closes) (fromEnd closes 20))]
   else [])

/-- Embedding of the extension's `_analyze_momentum` score. -/
def momScoreExt (closes : List ℚ) (volPct : ℚ) : ℚ :=
  if closes.length < 20 then 50
  else round2 (qmean (momFactorsExt closes volPct))

/-! ### Sentiment scoring -/

/-- Positive-days sub-score of `analysis.py` on the 10-day positive
fraction. -/
def posRatioScorePy (r : ℚ) : ℚ := if 0.7 < r then 70 else if r < 0.3 then 30 else 50

/-- Volume-sentiment sub-score shared by both modules (10-day over 60-day
volume). -/
def volSentScore (r : ℚ) : ℚ := if 1.5 < r then 65 else if r < 0.7 then 45 else 55

/-- Market-cap sub-score of `analysis.py`. -/
def mcapScorePy (m : ℚ) : ℚ :=
  if 10000000000 < m then 70
  else if 2000000000 < m then 60
  else if 300000000 < m then 50
  else 40

/-- Market-cap sub-score of the extension module. -/
def mcapScoreExt (m : ℚ) : ℚ :=
  if 200000000000 < m then 65
  else if 10000000000 < m then 60
  else if 2000000000 < m then 55
  else 45

/-- Analyst-rating table of the extension module; unrecognized labels (and
any casing not listed) default to 50. -/
def ratingScoreExt (s : String) : ℚ :=
  if s = "STRONG_BUY" ∨ s = "strong_buy" then 90
  else if s = "Buy" ∨ s = "BUY" then 75
  else if s = "HOLD" ∨ s = "hold" ∨ s = "Hold" then 50
  else if s = "SELL" ∨ s = "sell" ∨ s = "Sell" then 25
  else if s = "STRONG_SELL" ∨ s = "strong_sell" then 10
  else 50

/-- Sector table of the extension module. -/
def sectorScoreExt (s : String) : ℚ :=
  if s = "Technology" then 70
  else if s = "Healthcare" then 65
  else if s = "Consumer Discretionary" then 60
  else if s = "Financials" then 55
  else if s = "Industrials" then 55
  else if s = "Consumer Staples" then 60
  else if s = "Energy" then 45
  else if s = "Utilities" then 50
  else if s = "Real Estate" then 50
  else if s = "Materials" then 50
  else if s = "Communication Services" then 60
  else 50

/-- 30-day positive-fraction sub-score of the extension module. -/
def perfScoreExt (r : ℚ) : ℚ :=
  if 0.6 < r then 70 else if 0.5 < r then 60 else if r < 0.4 then 40 else 50

/-- Positive-days factor of `analysis.py.calculate_sentiment_score`: present
when the frame is nonempty with at least 10 rows; the positive fraction
divides by the literal 10. -/
def sentPriceFactorPy (closes : List ℚ) : List ℚ :=
  if ¬closes.isEmpty ∧ 10 ≤ closes.length then
    [posRatioScorePy ((posCountLast closes 10 : ℚ) / 10)]
  else []

/-- Volume factor of `analysis.py.calculate_sentiment_score`: present from
20 rows on when the 60-day average volume is positive. -/
def sentVolFactorPy (closes volumes : List ℚ) : List ℚ :=
  if 20 ≤ closes.length ∧ 0 < tailMean volumes 60 then
    [volSentScore (tailMean volumes 10 / tailMean volumes 60)]
  else []

/-- Market-cap factor of `analysis.py.calculate_sentiment_score`
(`if market_cap:` — truthy test). -/
def sentMcapFactorPy (mcap : Option ℚ) : List ℚ :=
  match mcap with
  | some m => if m ≠ 0 then [mcapScorePy m] else []
  | none => []

/-- Result of `analysis.py.calculate_sentiment_score`: the (unrounded) score
and the size of its `factors` map (`positive_ratio`, `volume_ratio`; the
market-cap block stores no factor entry). -/
structure SentOutPy where
  score : ℚ
  nFac : ℕ
deriving DecidableEq

/-- Embedding of `analysis.py.calculate_sentiment_score` (lines 455-527). -/
def sentOutPy (closes volumes : List ℚ) (mcap : Option ℚ) : SentOutPy :=
  let fs := sentPriceFactorPy closes ++ sentVolFactorPy closes volumes ++ sentMcapFactorPy mcap
  ⟨if fs = [] then 50 else qmean fs,
   (sentPriceFactorPy closes).length + (sentVolFactorPy closes volumes).length⟩

/-- Score factors of the extension's `_analyze_sentiment` (lines 611-731);
`analyst_rating` and `sector` are Python-truthy only when present and
nonempty, `market_cap` when present and nonzero; the volume ratio falls back
to 1 when the average volume is not positive. -/
def sentFactorsExt (closes volumes : List ℚ) (f : Fundamentals) : List ℚ :=
  (match f.analyst_rating with
   | some s => if s ≠ "" then [ratingScoreExt s] else []
   | none => []) ++
  (match f.market_cap with
   | some m => if m ≠ 0 then [mcapScoreExt m] else []
   | none => []) ++
  (match f.sector with
   | some s => if s ≠ "" then [sectorScoreExt s] else []
   | none => []) ++
  (if 30 ≤ closes.length then [perfScoreExt ((posCountLast closes 30 : ℚ) / 30)] else []) ++
  (if 20 ≤ closes.length then
     [volSentScore (if 0 < tailMean volumes 60 then tailMean volumes 10 / tailMean volumes 60 else 1)]
   else [])

/-- Embedding of the extension's `_analyze_sentiment` score. -/
def sentScoreExt (closes volumes : List ℚ) (f : Fundamentals) : ℚ :=
  if sentFactorsExt closes volumes f = [] then 50
  else round2 (qmean (sentFactorsExt closes volumes f))

/-! ### Risk assessment -/

/-- Volatility contribution of `analysis.py._assess_risk`; `none` models the
volatility not being computed (fewer than 30 bars). -/
def volRiskPoints : Option ℚ → ℕ
  | none => 0
  | some v => if 0.5 < v then 30 else if 0.35 < v then 20 else if 0.25 < v then 10 else 0

/-- Debt-to-equity contribution (`if debt_to_equity and debt_to_equity > 1.0
... elif debt_to_equity and debt_to_equity > 0.5`). -/
def deRiskPoints : Option ℚ → ℕ
  | none => 0
  | some d => if d ≠ 0 ∧ 1 < d then 20 else if d ≠ 0 ∧ 0.5 < d then 10 else 0

/-- RSI contribution (`if rsi:` — a stored RSI of exactly 0 is falsy and
contributes nothing). -/
def rsiRiskPoints : Option ℚ → ℕ
  | none => 0
  | some r => if r ≠ 0 ∧ (75 < r ∨ r < 25) then 15 else 0

/-- Market-cap contribution (`if market_cap and market_cap < 300_000_000 ...
elif market_cap and market_cap < 2_000_000_000`). -/
def mcapRiskPoints : Option ℚ → ℕ
  | none => 0
  | some m => if m ≠ 0 ∧ m < 300000000 then 25 else if m ≠ 0 ∧ m < 2000000000 then 15 else 0

/-- Accumulated risk points of `analysis.py._assess_risk` (lines 575-624). -/
def riskPoints (vol de rsi mcap : Option ℚ) : ℕ :=
  volRiskPoints vol + deRiskPoints de + rsiRiskPoints rsi + mcapRiskPoints mcap

/-- Risk-point classification of `analysis.py._assess_risk`. -/
def classifyRiskPoints (p : ℕ) : RiskLevel :=
  if 60 < p then .veryHigh else if 40 < p then .high else if 20 < p then .medium else .low

/-- Embedding of `analysis.py._assess_risk`. -/
def assess_risk (vol de rsi mcap : Option ℚ) : RiskLevel :=
  classifyRiskPoints (riskPoints vol de rsi mcap)

/-- Modelled from the claim/spec wording of the RiskAssessor: 15 points
whenever a present oscillator value is above 75 or below 25, and 25/15
points whenever a present market cap is below $300M/$2B; only a MISSING
input contributes 0 points. -/
def rsiRiskPointsClaim : Option ℚ → ℕ
  | none => 0
  | some r => if 75 < r ∨ r < 25 then 15 else 0

/-- Modelled from the claim/spec wording (companion of
`rsiRiskPointsClaim`). -/
def mcapRiskPointsClaim : Option ℚ → ℕ
  | none => 0
  | some m => if m < 300000000 then 25 else if m < 2000000000 then 15 else 0

/-- Risk points as the claim words them. -/
def riskPointsClaim (vol de rsi mcap : Option ℚ) : ℕ :=
  volRiskPoints vol + deRiskPoints de + rsiRiskPointsClaim rsi + mcapRiskPointsClaim mcap

/-- Risk level as the claim words it. -/
def assessRiskClaim (vol de rsi mcap : Option ℚ) : RiskLevel :=
  classifyRiskPoints (riskPointsClaim vol de rsi mcap)

/-- Volatility vote of the extension's `_assess_risk` (lines 778-833). -/
def riskVoteVol (v : ℚ) : RiskLevel :=
  if 0.4 < v then .high else if 0.25 < v then .medium else .low

/-- Debt-to-equity vote of the extension's `_assess_risk`. -/
def riskVoteDe (d : ℚ) : RiskLevel :=
  if 1 < d then .high else if 0.5 < d then .medium else .low

/-- RSI vote of the extension's `_assess_risk`. -/
def riskVoteRsi (r : ℚ) : RiskLevel :=
  if 80 < r ∨ r < 20 then .high else if 70 < r ∨ r < 30 then .medium else .low

/-- Embedding of the extension's vote-counting `_assess_risk`. -/
def assessRiskExt (vol de rsi : Option ℚ) : RiskLevel :=
  let votes : List RiskLevel :=
    (match vol with | some v => [riskVoteVol v] | none => []) ++
    (match de with | some d => if d ≠ 0 then [riskVoteDe d] else [] | none => []) ++
    (match rsi with | some r => if r ≠ 0 then [riskVoteRsi r] else [] | none => [])
  let nH := votes.count .high
  let nM := votes.count .medium
  if 2 ≤ nH then .veryHigh
  else if 1 ≤ nH then .high
  else if 2 ≤ nM then .high
  else if 1 ≤ nM then .medium
  else .low

/-! ### Confidence -/

/-- Completeness entries of `analysis.py._calculate_confidence`
(lines 626-666): a dimension contributes an entry only when its factor /
indicator / metric map is nonempty (`if fundamental.get('factors'):` etc.);
the fundamental fraction (out of 6) is not capped, the other three (out of
4, 3, 3) are capped at 100. -/
def completenessListPy (nF nT nM nS : ℕ) : List ℚ :=
  (if 0 < nF then [(nF : ℚ) / 6 * 100] else []) ++
  (if 0 < nT then [min ((nT : ℚ) / 4 * 100) 100] else []) ++
  (if 0 < nM then [min ((nM : ℚ) / 3 * 100) 100] else []) ++
  (if 0 < nS then [min ((nS : ℚ) / 3 * 100) 100] else [])

/-- Embedding of `analysis.py._calculate_confidence`; `sigma` is the
population standard deviation of the four dimension scores (`np.std`). -/
def calculate_confidence (nF nT nM nS : ℕ) (sigma : ℚ) : ℚ :=
  let l := completenessListPy nF nT nM nS
  let base := if l = [] then 50 else qmean l
  min (base * 0.6 + max 0 (100 - sigma * 2) * 0.4) 100

/-- Modelled from the claim/spec wording of the ConfidenceEstimator:
completeness is the mean over all FOUR dimensions of the populated fraction
(an empty dimension contributing 0), and the blend is clamped to
`[0, 100]`. -/
def confidenceClaim (nF nT nM nS : ℕ) (sigma : ℚ) : ℚ :=
  let base := qmean [(nF : ℚ) / 6 * 100, min ((nT : ℚ) / 4 * 100) 100,
    min ((nM : ℚ) / 3 * 100) 100, min ((nS : ℚ) / 3 * 100) 100]
  max 0 (min (base * 0.6 + max 0 (100 - sigma * 2) * 0.4) 100)

/-- Embedding of the extension's `_calculate_confidence` (lines 835-865):
the source compares `np.std(scores)` against 10 / 15 / 20 / 25; since the
standard deviation is the square root of the (nonnegative) population
variance, those comparisons are equivalent to comparing the variance against
100 / 225 / 400 / 625, which keeps the definition within `ℚ`. -/
def confidenceExtOfVar (v : ℚ) : ℚ :=
  if v < 100 then 90 else if v < 225 then 80 else if v < 400 then 70
  else if v < 625 then 60 else 50

/-! ### Target price -/

/-- Overall-score band multiplier shared by both `_calculate_target_price`
implementations. -/
def scoreMultiplier (s : ℚ) : ℚ :=
  if 80 ≤ s then 1.25 else if 65 ≤ s then 1.15 else if 35 ≤ s then 1.05
  else if 20 ≤ s then 0.95 else 0.85

/-- P/E adjustment shared by both implementations: applied only when
`pe and pe > 0` (present, truthy and positive). -/
def peAdjust (pe : Option ℚ) (m : ℚ) : ℚ :=
  match pe with
  | none => m
  | some p => if 0 < p then (if p < 15 then m * 1.05 else if 30 < p then m * 0.95 else m) else m

/-- Embedding of `analysis.py._calculate_target_price` (lines 542-573). -/
def calculate_target_price (currentPrice : ℚ) (pe : Option ℚ) (overall : ℚ) : Option ℚ :=
  if currentPrice = 0 then none
  else some (round2 (currentPrice * peAdjust pe (scoreMultiplier overall)))

/-- Modelled from the claim/spec wording: the P/E adjustment applies
whenever `pe_ratio` is present (`< 15` and `> 30` as stated, with no
positivity test). -/
def peAdjustClaim (pe : Option ℚ) (m : ℚ) : ℚ :=
  match pe with
  | none => m
  | some p => if p < 15 then m * 1.05 else if 30 < p then m * 0.95 else m

/-- Target price as the claim words it. -/
def targetPriceClaim (currentPrice : ℚ) (pe : Option ℚ) (overall : ℚ) : Option ℚ :=
  if currentPrice = 0 then none
  else some (round2 (currentPrice * peAdjustClaim pe (scoreMultiplier overall)))

/-- Embedding of the extension's `_calculate_target_price` (lines 746-776):
no zero-price test — it always returns a rounded price on a nonempty frame
(`none` only through the exception handler, not modelled on the success
path). -/
def targetPriceExt (closes : List ℚ) (pe : Option ℚ) (overall : ℚ) : Option ℚ :=
  some (round2 (lastD closes * peAdjust pe (scoreMultiplier overall)))

/-! ### Orchestrators -/

/-- Error outcomes of the extension's `analyze_stock`. -/
inductive AnalysisError where
  | noPriceData
  | insufficientPriceData
deriving DecidableEq

/-- Result record of the extension's `analyze_stock`; the default field
values are the initial `analysis_result` dictionary of lines 100-114. -/
structure AnalysisResultExt where
  symbol : String
  fundamental_score : ℚ := 0
  technical_score : ℚ := 0
  momentum_score : ℚ := 0
  sentiment_score : ℚ := 0
  overall_score : ℚ := 0
  recommendation : Recommendation := .hold
  target_price : Option ℚ := none
  risk_rating : RiskLevel := .medium
  confidence_level : ℚ := 0
  error : Option AnalysisError := none
deriving DecidableEq

/-- Initial result with only the error field set: what the extension's
`analyze_stock` returns from its two validation branches. -/
def errorResultExt (symbol : String) (e : AnalysisError) : AnalysisResultExt :=
  { symbol := symbol, error := some e }

/-- Embedding of the extension's `analyze_stock` (lines 87-187) for a caller
that supplies the `symbol` key (the lookup itself is modelled in
`analyzeStockExtE`). -/
def analyzeStockExt (symbol : String) (bars : List Bar) (f : Fundamentals) (env : TaEnv) :
    AnalysisResultExt :=
  if bars.isEmpty then errorResultExt symbol .noPriceData
  else if bars.length < 50 then errorResultExt symbol .insufficientPriceData
  else
    let closes := bars.map Bar.close
    let volumes := bars.map Bar.volume
    let fund := fundScoreExt f
    let tech := techOutExt closes volumes env
    let mom := momScoreExt closes (env.vol * 100)
    let sent := sentScoreExt closes volumes f
    let overall := overallScore fund tech.score mom sent
    { symbol := symbol
      fundamental_score := fund
      technical_score := tech.score
      momentum_score := mom
      sentiment_score := sent
      overall_score := round2 overall
      recommendation := get_recommendation overall
      target_price := targetPriceExt closes f.pe_ratio overall
      risk_rating := assessRiskExt (if 30 ≤ bars.length then some env.vol else none)
        f.debt_to_equity tech.rsiInd
      confidence_level := confidenceExtOfVar (qvariance [fund, tech.score, mom, sent])
      error := none }

/-- Result record of `analysis.py.analyze_stock` on its non-exception path
(that dictionary carries no `error` key). -/
structure AnalysisResultPy where
  symbol : String
  overall_score : ℚ
  recommendation : Recommendation
  fundamental_score : ℚ
  technical_score : ℚ
  momentum_score : ℚ
  sentiment_score : ℚ
  risk_level : RiskLevel
  target_price : Option ℚ
  current_price : ℚ
  confidence : ℚ
deriving DecidableEq

/-- Embedding of `analysis.py.analyze_stock` (lines 79-172): no length
validation at all — every series, including an empty one, flows through the
four scorers (each of which degrades internally). -/
def analyzeStockPy (symbol : String) (bars : List Bar) (f : Fundamentals) (env : TaEnv) :
    AnalysisResultPy :=
  let closes := bars.map Bar.close
  let volumes := bars.map Bar.volume
  let fund := fundScorePy f
  let tech := techOutPy closes volumes env
  let mom := momOutPy closes env.vol
  let sent := sentOutPy closes volumes f.market_cap
  let overall := overallScore fund tech.score mom.score sent.score
  let currentPrice := if bars.isEmpty then 0 else lastD closes
  { symbol := symbol
    overall_score := round2 overall
    recommendation := get_recommendation overall
    fundamental_score := round2 fund
    technical_score := round2 tech.score
    momentum_score := round2 mom.score
    sentiment_score := round2 sent.score
    risk_level := assess_risk (if 30 ≤ bars.length then some env.vol else none)
      f.debt_to_equity tech.rsiInd f.market_cap
    target_price := calculate_target_price currentPrice f.pe_ratio overall
    current_price := currentPrice
    confidence := round2 (calculate_confidence (fundFactorsPy f).length tech.nInd mom.nMet
      sent.nFac env.sigma) }

/-- Python exceptions that can escape the entry points. -/
inductive PyExn where
  | keyError
deriving DecidableEq

/-- Caller-supplied input of the analysis entry points; a `none` symbol
models a `stock_data` dictionary without a `'symbol'` key. -/
structure AnalysisInput where
  symbol : Option String := none
  bars : List Bar := []
  fundamentals : Fundamentals := {}
deriving DecidableEq

/-- Exception-aware embedding of the extension's `analyze_stock`: line 97
reads `stock_data['symbol']` OUTSIDE the `try` block, so a missing key
raises `KeyError` to the caller; everything after line 116 is inside
`try/except Exception`. -/
def analyzeStockExtE (inp : AnalysisInput) (env : TaEnv) : Except PyExn AnalysisResultExt :=
  match inp.symbol with
  | none => .error .keyError
  | some s => .ok (analyzeStockExt s inp.bars inp.fundamentals env)

/-- Exception-aware embedding of `analysis.py.analyze_stock`: the whole body
sits inside `try/except Exception` and the symbol is read with
`stock_data.get('symbol', 'UNKNOWN')`, so no input can raise. -/
def analyzeStockPyE (inp : AnalysisInput) (env : TaEnv) : Except PyExn AnalysisResultPy :=
  .ok (analyzeStockPy (inp.symbol.getD "UNKNOWN") inp.bars inp.fundamentals env)

/-- A 50-bar flat sample series (used to instantiate hypotheses of the
theorems below at a concrete input). -/
def sampleBars50 : List Bar := List.replicate 50 { close := 100, volume := 1000 }

/-- A 10-bar flat sample series. -/
def sampleBars10 : List Bar := List.replicate 10 { close := 100, volume := 1000 }

/-! ### Helper lemmas -/

lemma getLastD_mem (l : List ℚ) (d : ℚ) (h : l ≠ []) : l.getLastD d ∈ l := by
  induction l with
  | nil => exact absurd rfl h
  | cons a t ih =>
    cases t with
    | nil => simp
    | cons b u =>
      have hm := ih (by simp)
      simp only [List.getLastD_cons] at hm ⊢
      exact List.mem_cons_of_mem a hm

lemma sum_le_mul_length (l : List ℚ) (b : ℚ) (h : ∀ x ∈ l, x ≤ b) :
    l.sum ≤ b * l.length := by
  induction l with
  | nil => simp
  | cons a t ih =>
    have ha := h a (List.mem_cons_self a t)
    have ht := ih (fun x hx => h x (List.mem_cons_of_mem a hx))
    simp only [List.sum_cons, List.length_cons]
    push_cast
    linarith

lemma mul_length_le_sum (l : List ℚ) (a : ℚ) (h : ∀ x ∈ l, a ≤ x) :
    a * l.length ≤ l.sum := by
  induction l with
  | nil => simp
  | cons c t ih =>
    have hc := h c (List.mem_cons_self c t)
    have ht := ih (fun x hx => h x (List.mem_cons_of_mem c hx))
    simp only [List.sum_cons, List.length_cons]
    push_cast
    linarith

lemma qmean_bounds (l : List ℚ) (a b : ℚ) (hne : l ≠ [])
    (h : ∀ x ∈ l, a ≤ x ∧ x ≤ b) : a ≤ qmean l ∧ qmean l ≤ b := by
  have hlen : 0 < (l.length : ℚ) := by
    have : 0 < l.length := List.length_pos.mpr hne
    exact_mod_cast this
  have hs1 := mul_length_le_sum l a (fun x hx => (h x hx).1)
  have hs2 := sum_le_mul_length l b (fun x hx => (h x hx).2)
  unfold qmean
  constructor
  · rw [le_div_iff₀ hlen]
    linarith
  · rw [div_le_iff₀ hlen]
    linarith

lemma roundHalfEven_bounds (q : ℚ) (a b : ℤ) (h1 : (a : ℚ) ≤ q) (h2 : q ≤ (b : ℚ)) :
    a ≤ roundHalfEven q ∧ roundHalfEven q ≤ b := by
  have hfa : a ≤ Int.floor q := Int.le_floor.mpr h1
  have hfq : (Int.floor q : ℚ) ≤ q := Int.floor_le q
  unfold roundHalfEven
  dsimp only
  split_ifs with hlt hgt hev
  · exact ⟨hfa, by have hm := Int.floor_mono h2; rwa [Int.floor_intCast] at hm⟩
  · refine ⟨le_trans hfa (by omega), ?_⟩
    have hq : (Int.floor q : ℚ) < q := by linarith
    have : (Int.floor q : ℚ) < (b : ℚ) := lt_of_lt_of_le hq h2
    have hfb : Int.floor q < b := by exact_mod_cast this
    omega
  · exact ⟨hfa, by have hm := Int.floor_mono h2; rwa [Int.floor_intCast] at hm⟩
  · refine ⟨le_trans hfa (by omega), ?_⟩
    have hq : (Int.floor q : ℚ) < q := by linarith
    have : (Int.floor q : ℚ) < (b : ℚ) := lt_of_lt_of_le hq h2
    have hfb : Int.floor q < b := by exact_mod_cast this
    omega

lemma round2_bounds (x a b : ℚ) (ha : ∃ n : ℤ, (n : ℚ) = 100 * a) (hb : ∃ n : ℤ, (n : ℚ) = 100 * b)
    (h1 : a ≤ x) (h2 : x ≤ b) : a ≤ round2 x ∧ round2 x ≤ b := by
  obtain ⟨na, hna⟩ := ha
  obtain ⟨nb, hnb⟩ := hb
  have hr := roundHalfEven_bounds (100 * x) na nb (by rw [hna]; linarith) (by rw [hnb]; linarith)
  unfold round2
  constructor
  · rw [le_div_iff₀ (by norm_num : (0:ℚ) < 100)]
    calc a * 100 = (na : ℚ) := by linarith
    _ ≤ (roundHalfEven (100 * x) : ℚ) := by exact_mod_cast hr.1
  · rw [div_le_iff₀ (by norm_num : (0:ℚ) < 100)]
    calc (roundHalfEven (100 * x) : ℚ) ≤ (nb : ℚ) := by exact_mod_cast hr.2
    _ = b * 100 := by linarith

lemma ite_bounds {lo hi a b : ℚ} (c : Prop) [Decidable c] (ha : lo ≤ a ∧ a ≤ hi)
    (hb : lo ≤ b ∧ b ≤ hi) : lo ≤ (if c then a else b) ∧ (if c then a else b) ≤ hi := by
  by_cases h : c <;> simp only [h, if_true, if_false] <;> tauto

lemma peScore_bounds (v : ℚ) : 10 ≤ peScore v ∧ peScore v ≤ 90 := by
  unfold peScore; split_ifs <;> norm_num

lemma pbScore_bounds (v : ℚ) : 10 ≤ pbScore v ∧ pbScore v ≤ 90 := by
  unfold pbScore; split_ifs <;> norm_num

lemma roeScore_bounds (v : ℚ) : 10 ≤ roeScore v ∧ roeScore v ≤ 90 := by
  unfold roeScore; split_ifs <;> norm_num

lemma deScore_bounds (v : ℚ) : 10 ≤ deScore v ∧ deScore v ≤ 90 := by
  unfold deScore; split_ifs <;> norm_num

lemma pmScore_bounds (v : ℚ) : 10 ≤ pmScore v ∧ pmScore v ≤ 90 := by
  unfold pmScore; split_ifs <;> norm_num

lemma rgScoreExt_bounds (v : ℚ) : 10 ≤ rgScoreExt v ∧ rgScoreExt v ≤ 90 := by
  unfold rgScoreExt; split_ifs <;> norm_num

lemma crScoreExt_bounds (v : ℚ) : 10 ≤ crScoreExt v ∧ crScoreExt v ≤ 90 := by
  unfold crScoreExt; split_ifs <;> norm_num

lemma maScoreChain_bounds (p m20 m50 : ℚ) : 10 ≤ maScoreChain p m20 m50 ∧ maScoreChain p m20 m50 ≤ 90 := by
  unfold maScoreChain; split_ifs <;> norm_num

lemma rsiScoreExt_bounds (r : ℚ) : 10 ≤ rsiScoreExt r ∧ rsiScoreExt r ≤ 90 := by
  unfold rsiScoreExt; split_ifs <;> norm_num

lemma rsiScorePy_bounds (r : ℚ) : 10 ≤ rsiScorePy r ∧ rsiScorePy r ≤ 90 := by
  unfold rsiScorePy; split_ifs <;> norm_num

lemma macdScoreExt_bounds (c p : ℚ) : 10 ≤ macdScoreExt c p ∧ macdScoreExt c p ≤ 90 := by
  unfold macdScoreExt; split_ifs <;> norm_num

lemma bbScoreExt_bounds (c u l : ℚ) : 10 ≤ bbScoreExt c u l ∧ bbScoreExt c u l ≤ 90 := by
  unfold bbScoreExt; split_ifs <;> norm_num

lemma volScoreExt_bounds (r a : ℚ) : 10 ≤ volScoreExt r a ∧ volScoreExt r a ≤ 90 := by
  unfold volScoreExt; split_ifs <;> norm_num

lemma goldenCrossScorePy_bounds (a b : ℚ) : 10 ≤ goldenCrossScorePy a b ∧ goldenCrossScorePy a b ≤ 90 := by
  unfold goldenCrossScorePy; split_ifs <;> norm_num

lemma trendScorePy_bounds (p a b : ℚ) : 10 ≤ trendScorePy p a b ∧ trendScorePy p a b ≤ 90 := by
  unfold trendScorePy; split_ifs <;> norm_num

lemma mom1mPy_bounds (r : ℚ) : 20 ≤ mom1mPy r ∧ mom1mPy r ≤ 85 := by
  unfold mom1mPy; split_ifs <;> norm_num

lemma mom3mPy_bounds (r : ℚ) : 20 ≤ mom3mPy r ∧ mom3mPy r ≤ 85 := by
  unfold mom3mPy; split_ifs <;> norm_num

lemma mom5Ext_bounds (r : ℚ) : 10 ≤ mom5Ext r ∧ mom5Ext r ≤ 90 := by
  unfold mom5Ext; split_ifs <;> norm_num

lemma mom20Ext_bounds (r : ℚ) : 10 ≤ mom20Ext r ∧ mom20Ext r ≤ 90 := by
  unfold mom20Ext; split_ifs <;> norm_num

lemma mom60Ext_bounds (r : ℚ) : 10 ≤ mom60Ext r ∧ mom60Ext r ≤ 90 := by
  unfold mom60Ext; split_ifs <;> norm_num

lemma momVolScoreExt_bounds (v r : ℚ) : 10 ≤ momVolScoreExt v r ∧ momVolScoreExt v r ≤ 90 := by
  unfold momVolScoreExt; split_ifs <;> norm_num

lemma posRatioScorePy_bounds (r : ℚ) : 10 ≤ posRatioScorePy r ∧ posRatioScorePy r ≤ 90 := by
  unfold posRatioScorePy; split_ifs <;> norm_num

lemma volSentScore_bounds (r : ℚ) : 10 ≤ volSentScore r ∧ volSentScore r ≤ 90 := by
  unfold volSentScore; split_ifs <;> norm_num

lemma mcapScorePy_bounds (m : ℚ) : 10 ≤ mcapScorePy m ∧ mcapScorePy m ≤ 90 := by
  unfold mcapScorePy; split_ifs <;> norm_num

lemma mcapScoreExt_bounds (m : ℚ) : 10 ≤ mcapScoreExt m ∧ mcapScoreExt m ≤ 90 := by
  unfold mcapScoreExt; split_ifs <;> norm_num

lemma ratingScoreExt_bounds (s : String) : 10 ≤ ratingScoreExt s ∧ ratingScoreExt s ≤ 90 := by
  unfold ratingScoreExt
  refine ite_bounds _ ⟨by norm_num, by norm_num⟩ ?_
  refine ite_bounds _ ⟨by norm_num, by norm_num⟩ ?_
  refine ite_bounds _ ⟨by norm_num, by norm_num⟩ ?_
  refine ite_bounds _ ⟨by norm_num, by norm_num⟩ ?_
  refine ite_bounds _ ⟨by norm_num, by norm_num⟩ ?_
  exact ⟨by norm_num, by norm_num⟩

lemma sectorScoreExt_bounds (s : String) : 10 ≤ sectorScoreExt s ∧ sectorScoreExt s ≤ 90 := by
  unfold sectorScoreExt
  refine ite_bounds _ ⟨by norm_num, by norm_num⟩ ?_
  refine ite_bounds _ ⟨by norm_num, by norm_num⟩ ?_
  refine ite_bounds _ ⟨by norm_num, by norm_num⟩ ?_
  refine ite_bounds _ ⟨by norm_num, by norm_num⟩ ?_
  refine ite_bounds _ ⟨by norm_num, by norm_num⟩ ?_
  refine ite_bounds _ ⟨by norm_num, by norm_num⟩ ?_
  refine ite_bounds _ ⟨by norm_num, by norm_num⟩ ?_
  refine ite_bounds _ ⟨by norm_num, by norm_num⟩ ?_
  refine ite_bounds _ ⟨by norm_num, by norm_num⟩ ?_
  refine ite_bounds _ ⟨by norm_num, by norm_num⟩ ?_
  refine ite_bounds _ ⟨by norm_num, by norm_num⟩ ?_
  exact ⟨by norm_num, by norm_num⟩

lemma perfScoreExt_bounds (r : ℚ) : 10 ≤ perfScoreExt r ∧ perfScoreExt r ≤ 90 := by
  unfold perfScoreExt; split_ifs <;> norm_num

lemma fundFactorsPy_bounds (f : Fundamentals) :
    ∀ x ∈ (fundFactorsPy f).map Prod.snd, 10 ≤ x ∧ x ≤ 90 := by
  intro x hx
  unfold fundFactorsPy at hx
  simp only [List.map_append, List.mem_append] at hx
  rcases hx with (((hx | hx) | hx) | hx) | hx
  · rcases ho : f.pe_ratio with _ | v <;> simp only [ho] at hx
    · simp at hx
    · by_cases h : 0 < v <;> simp [h] at hx
      exact hx ▸ peScore_bounds v
  · rcases ho : f.price_to_book with _ | v <;> simp only [ho] at hx
    · simp at hx
    · by_cases h : 0 < v <;> simp [h] at hx
      exact hx ▸ pbScore_bounds v
  · rcases ho : f.return_on_equity with _ | v <;> simp only [ho] at hx
    · simp at hx
    · by_cases h : v = 0 <;> simp [h] at hx
      exact hx ▸ roeScore_bounds v
  · rcases ho : f.debt_to_equity with _ | v <;> simp only [ho] at hx
    · simp at hx
    · simp at hx
      exact hx ▸ deScore_bounds v
  · rcases ho : f.profit_margin with _ | v <;> simp only [ho] at hx
    · simp at hx
    · by_cases h : v = 0 <;> simp [h] at hx
      exact hx ▸ pmScore_bounds v

lemma fundFactorsExt_bounds (f : Fundamentals) :
    ∀ x ∈ (fundFactorsExt f).map Prod.snd, 10 ≤ x ∧ x ≤ 90 := by
  intro x hx
  unfold fundFactorsExt at hx
  simp only [List.map_cons, List.map_nil, List.mem_cons, List.not_mem_nil, or_false] at hx
  rcases hx with hx | hx | hx | hx | hx | hx | hx
  · rcases ho : f.pe_ratio with _ | v <;> simp only [ho] at hx
    · exact hx ▸ by norm_num
    · by_cases h : 0 < v <;> simp [h] at hx
      · exact hx ▸ peScore_bounds v
      · exact hx ▸ by norm_num
  · rcases ho : f.price_to_book with _ | v <;> simp only [ho] at hx
    · exact hx ▸ by norm_num
    · by_cases h : 0 < v <;> simp [h] at hx
      · exact hx ▸ pbScore_bounds v
      · exact hx ▸ by norm_num
  · rcases ho : f.return_on_equity with _ | v <;> simp only [ho] at hx
    · exact hx ▸ by norm_num
    · by_cases h : v = 0 <;> simp [h] at hx
      · exact hx ▸ by norm_num
      · exact hx ▸ roeScore_bounds v
  · rcases ho : f.debt_to_equity with _ | v <;> simp only [ho] at hx
    · exact hx ▸ by norm_num
    · exact hx ▸ deScore_bounds v
  · rcases ho : f.profit_margin with _ | v <;> simp only [ho] at hx
    · exact hx ▸ by norm_num
    · by_cases h : v = 0 <;> simp [h] at hx
      · exact hx ▸ by norm_num
      · exact hx ▸ pmScore_bounds v
  · rcases ho : f.revenue_growth with _ | v <;> simp only [ho] at hx
    · exact hx ▸ by norm_num
    · by_cases h : v = 0 <;> simp [h] at hx
      · exact hx ▸ by norm_num
      · exact hx ▸ rgScoreExt_bounds v
  · rcases ho : f.current_ratio with _ | v <;> simp only [ho] at hx
    · exact hx ▸ by norm_num
    · by_cases h : v = 0 <;> simp [h] at hx
      · exact hx ▸ by norm_num
      · exact hx ▸ crScoreExt_bounds v

lemma techFactorsPy_bounds (closes : List ℚ) (env : TaEnv) :
    ∀ x ∈ techFactorsPy closes env, 10 ≤ x ∧ x ≤ 90 := by
  intro x hx
  unfold techFactorsPy at hx
  simp only [List.mem_append] at hx
  rcases hx with hx | hx
  · by_cases h : 200 ≤ closes.length <;> simp [h] at hx
    rcases hx with hx | hx
    · exact hx ▸ goldenCrossScorePy_bounds _ _
    · exact hx ▸ trendScorePy_bounds _ _ _
  · rcases ho : (if env.hasTA then env.rsi else none) with _ | r <;> simp only [ho] at hx
    · simp at hx
    · simp at hx
      exact hx ▸ rsiScorePy_bounds r

lemma techFactorsExt_bounds (closes volumes : List ℚ) (env : TaEnv) :
    ∀ x ∈ techFactorsExt closes volumes env, 10 ≤ x ∧ x ≤ 90 := by
  intro x hx
  unfold techFactorsExt at hx
  simp only [List.mem_append] at hx
  rcases hx with (((hx | hx) | hx) | hx) | hx
  · by_cases h : 20 ≤ closes.length ∧ 50 ≤ closes.length <;> simp [h] at hx
    exact hx ▸ maScoreChain_bounds _ _ _
  · rcases ho : env.rsi with _ | r <;> simp only [ho] at hx
    · simp at hx
    · simp at hx
      exact hx ▸ rsiScoreExt_bounds r
  · rcases ho : env.macd with _ | pr <;> simp only [ho] at hx
    · simp at hx
    · by_cases h : 1 < closes.length <;> simp [h] at hx
      exact hx ▸ macdScoreExt_bounds _ _
  · rcases ho : env.bb with _ | pr <;> simp only [ho] at hx
    · simp at hx
    · simp at hx
      exact hx ▸ bbScoreExt_bounds _ _ _
  · by_cases h : 20 ≤ closes.length <;> simp [h] at hx
    exact hx ▸ volScoreExt_bounds _ _

lemma momBaseFactorsPy_bounds (closes : List ℚ) :
    ∀ x ∈ momBaseFactorsPy closes, 20 ≤ x ∧ x ≤ 85 := by
  intro x hx
  unfold momBaseFactorsPy at hx
  simp only [List.mem_append] at hx
  rcases hx with hx | hx
  · simp at hx
    exact hx ▸ mom1mPy_bounds _
  · by_cases h : 60 ≤ closes.length <;> simp [h] at hx
    exact hx ▸ mom3mPy_bounds _

lemma momFactorsPy_bounds (closes : List ℚ) (vol : ℚ) :
    ∀ x ∈ momFactorsPy closes vol, 16 ≤ x ∧ x ≤ 85 := by
  intro x hx
  unfold momFactorsPy at hx
  simp only [List.mem_append] at hx
  rcases hx with hx | hx
  · have hb := momBaseFactorsPy_bounds closes x hx
    exact ⟨by linarith [hb.1], hb.2⟩
  · by_cases h : 30 ≤ closes.length ∧ 0.5 < vol <;> simp [h] at hx
    by_cases hb : momBaseFactorsPy closes = []
    · rw [if_pos hb] at hx
      exact hx ▸ by norm_num
    · rw [if_neg hb] at hx
      have hm := momBaseFactorsPy_bounds closes _ (getLastD_mem _ 0 hb)
      rw [List.getLastD_eq_getLast?] at hm
      subst hx
      constructor <;> [linarith [hm.1]; linarith [hm.2]]

lemma momFactorsExt_bounds (closes : List ℚ) (volPct : ℚ) :
    ∀ x ∈ momFactorsExt closes volPct, 10 ≤ x ∧ x ≤ 90 := by
  intro x hx
  unfold momFactorsExt at hx
  simp only [List.mem_append] at hx
  rcases hx with (hx | hx) | hx
  · simp at hx
    rcases hx with hx | hx
    · exact hx ▸ mom5Ext_bounds _
    · exact hx ▸ mom20Ext_bounds _
  · by_cases h : 60 ≤ closes.length <;> simp [h] at hx
    exact hx ▸ mom60Ext_bounds _
  · by_cases h : 30 ≤ closes.length <;> simp [h] at hx
    exact hx ▸ momVolScoreExt_bounds _ _

lemma sentFactorsPyAll_bounds (closes volumes : List ℚ) (mcap : Option ℚ) :
    ∀ x ∈ sentPriceFactorPy closes ++ sentVolFactorPy closes volumes ++ sentMcapFactorPy mcap,
      10 ≤ x ∧ x ≤ 90 := by
  intro x hx
  simp only [List.mem_append] at hx
  rcases hx with (hx | hx) | hx
  · unfold sentPriceFactorPy at hx
    by_cases h : ¬closes.isEmpty ∧ 10 ≤ closes.length <;> simp [h] at hx
    · exact hx ▸ posRatioScorePy_bounds _
    · exact hx.2 ▸ posRatioScorePy_bounds _
  · unfold sentVolFactorPy at hx
    by_cases h : 20 ≤ closes.length ∧ 0 < tailMean volumes 60 <;> simp [h] at hx
    · exact hx ▸ volSentScore_bounds _
  · unfold sentMcapFactorPy at hx
    rcases ho : mcap with _ | m <;> simp only [ho] at hx
    · simp at hx
    · by_cases h : m = 0 <;> simp [h] at hx
      exact hx ▸ mcapScorePy_bounds m

lemma sentFactorsExt_bounds (closes volumes : List ℚ) (f : Fundamentals) :
    ∀ x ∈ sentFactorsExt closes volumes f, 10 ≤ x ∧ x ≤ 90 := by
  intro x hx
  unfold sentFactorsExt at hx
  simp only [List.mem_append] at hx
  rcases hx with (((hx | hx) | hx) | hx) | hx
  · rcases ho : f.analyst_rating with _ | s <;> simp only [ho] at hx
    · simp at hx
    · by_cases h : s = "" <;> simp [h] at hx
      exact hx ▸ ratingScoreExt_bounds s
  · rcases ho : f.market_cap with _ | m <;> simp only [ho] at hx
    · simp at hx
    · by_cases h : m = 0 <;> simp [h] at hx
      exact hx ▸ mcapScoreExt_bounds m
  · rcases ho : f.sector with _ | s <;> simp only [ho] at hx
    · simp at hx
    · by_cases h : s = "" <;> simp [h] at hx
      exact hx ▸ sectorScoreExt_bounds s
  · by_cases h : 30 ≤ closes.length <;> simp [h] at hx
    exact hx ▸ perfScoreExt_bounds _
  · by_cases h : 20 ≤ closes.length <;> simp [h] at hx
    exact hx ▸ volSentScore_bounds _

lemma fundScorePy_bounds (f : Fundamentals) : 10 ≤ fundScorePy f ∧ fundScorePy f ≤ 90 := by
  unfold fundScorePy
  split_ifs with h
  · norm_num
  · exact qmean_bounds _ _ _ h (fundFactorsPy_bounds f)

lemma fundScoreExt_bounds (f : Fundamentals) : 10 ≤ fundScoreExt f ∧ fundScoreExt f ≤ 90 := by
  unfold fundScoreExt
  have h := qmean_bounds ((fundFactorsExt f).map Prod.snd) 10 90
    (by simp [fundFactorsExt]) (fundFactorsExt_bounds f)
  exact round2_bounds _ 10 90 ⟨1000, by norm_num⟩ ⟨9000, by norm_num⟩ h.1 h.2

lemma techOutPy_score_eq (closes volumes : List ℚ) (env : TaEnv) :
    (techOutPy closes volumes env).score =
      if closes.length < 20 then 50
      else if techFactorsPy closes env = [] then 50 else qmean (techFactorsPy closes env) := by
  unfold techOutPy
  by_cases h : closes.length < 20 <;> simp [h]

lemma techOutPy_score_bounds (closes volumes : List ℚ) (env : TaEnv) :
    10 ≤ (techOutPy closes volumes env).score ∧ (techOutPy closes volumes env).score ≤ 90 := by
  rw [techOutPy_score_eq]
  split_ifs with h1 h2
  · norm_num
  · norm_num
  · exact qmean_bounds _ _ _ h2 (techFactorsPy_bounds closes env)

lemma techOutExt_score_eq (closes volumes : List ℚ) (env : TaEnv) :
    (techOutExt closes volumes env).score =
      if closes.isEmpty then 50
      else if techFactorsExt closes volumes env = [] then 50
      else round2 (qmean (techFactorsExt closes volumes env)) := by
  unfold techOutExt
  by_cases h : closes.isEmpty <;> simp [h]

lemma techOutExt_score_bounds (closes volumes : List ℚ) (env : TaEnv) :
    10 ≤ (techOutExt closes volumes env).score ∧ (techOutExt closes volumes env).score ≤ 90 := by
  rw [techOutExt_score_eq]
  split_ifs with h1 h2
  · norm_num
  · norm_num
  · have hq := qmean_bounds _ _ _ h2 (techFactorsExt_bounds closes volumes env)
    exact round2_bounds _ 10 90 ⟨1000, by norm_num⟩ ⟨9000, by norm_num⟩ hq.1 hq.2

lemma momOutPy_score_eq (closes : List ℚ) (vol : ℚ) :
    (momOutPy closes vol).score =
      if closes.length < 20 then 50
      else if momFactorsPy closes vol = [] then 50 else qmean (momFactorsPy closes vol) := by
  unfold momOutPy
  by_cases h : closes.length < 20 <;> simp [h]

lemma momOutPy_score_bounds (closes : List ℚ) (vol : ℚ) :
    16 ≤ (momOutPy closes vol).score ∧ (momOutPy closes vol).score ≤ 85 := by
  rw [momOutPy_score_eq]
  split_ifs with h1 h2
  · norm_num
  · norm_num
  · exact qmean_bounds _ _ _ h2 (momFactorsPy_bounds closes vol)

lemma momScoreExt_bounds (closes : List ℚ) (volPct : ℚ) :
    10 ≤ momScoreExt closes volPct ∧ momScoreExt closes volPct ≤ 90 := by
  unfold momScoreExt
  split_ifs with h
  · norm_num
  · have hne : momFactorsExt closes volPct ≠ [] := by
      unfold momFactorsExt
      simp
    have hq := qmean_bounds _ _ _ hne (momFactorsExt_bounds closes volPct)
    exact round2_bounds _ 10 90 ⟨1000, by norm_num⟩ ⟨9000, by norm_num⟩ hq.1 hq.2

lemma sentOutPy_score_eq (closes volumes : List ℚ) (mcap : Option ℚ) :
    (sentOutPy closes volumes mcap).score =
      if sentPriceFactorPy closes ++ sentVolFactorPy closes volumes ++ sentMcapFactorPy mcap = []
      then 50
      else qmean (sentPriceFactorPy closes ++ sentVolFactorPy closes volumes ++
        sentMcapFactorPy mcap) := by
  unfold sentOutPy
  simp

lemma sentOutPy_score_bounds (closes volumes : List ℚ) (mcap : Option ℚ) :
    10 ≤ (sentOutPy closes volumes mcap).score ∧ (sentOutPy closes volumes mcap).score ≤ 90 := by
  rw [sentOutPy_score_eq]
  split_ifs with h
  · norm_num
  · exact qmean_bounds _ _ _ h (sentFactorsPyAll_bounds closes volumes mcap)

lemma sentScoreExt_bounds (closes volumes : List ℚ) (f : Fundamentals) :
    10 ≤ sentScoreExt closes volumes f ∧ sentScoreExt closes volumes f ≤ 90 := by
  unfold sentScoreExt
  split_ifs with h
  · norm_num
  · have hq := qmean_bounds _ _ _ h (sentFactorsExt_bounds closes volumes f)
    exact round2_bounds _ 10 90 ⟨1000, by norm_num⟩ ⟨9000, by norm_num⟩ hq.1 hq.2

lemma overallScore_bounds (f t m s : ℚ) (hf : 10 ≤ f ∧ f ≤ 90) (ht : 10 ≤ t ∧ t ≤ 90)
    (hm : 10 ≤ m ∧ m ≤ 90) (hs : 10 ≤ s ∧ s ≤ 90) :
    10 ≤ overallScore f t m s ∧ overallScore f t m s ≤ 90 := by
  unfold overallScore
  obtain ⟨h1, h2⟩ := hf
  obtain ⟨h3, h4⟩ := ht
  obtain ⟨h5, h6⟩ := hm
  obtain ⟨h7, h8⟩ := hs
  constructor <;> nlinarith

/-! ### Claim theorems -/

/-- C2: on `[0,100]` the recommendation map of both modules is total with
STRONG_BUY iff `score ≥ 80`, BUY iff `65 ≤ score < 80`, HOLD iff
`35 ≤ score < 65`, SELL iff `20 ≤ score < 35`, STRONG_SELL iff `score < 20`,
each band's lower boundary inclusive, and it is monotone non-decreasing in
the score. -/
theorem C2_recommendation_thresholds (s t : ℚ) (_hs0 : 0 ≤ s) (_hs1 : s ≤ 100)
    (_ht0 : 0 ≤ t) (_ht1 : t ≤ 100) :
    (get_recommendation s = .strongBuy ↔ 80 ≤ s) ∧
    (get_recommendation s = .buy ↔ 65 ≤ s ∧ s < 80) ∧
    (get_recommendation s = .hold ↔ 35 ≤ s ∧ s < 65) ∧
    (get_recommendation s = .sell ↔ 20 ≤ s ∧ s < 35) ∧
    (get_recommendation s = .strongSell ↔ s < 20) ∧
    (s ≤ t → (get_recommendation s).rank ≤ (get_recommendation t).rank) := by
  have key : ∀ u : ℚ,
      (get_recommendation u = .strongBuy ↔ 80 ≤ u) ∧
      (get_recommendation u = .buy ↔ 65 ≤ u ∧ u < 80) ∧
      (get_recommendation u = .hold ↔ 35 ≤ u ∧ u < 65) ∧
      (get_recommendation u = .sell ↔ 20 ≤ u ∧ u < 35) ∧
      (get_recommendation u = .strongSell ↔ u < 20) := by
    intro u
    unfold get_recommendation
    split_ifs with h1 h2 h3 h4
    · exact ⟨iff_of_true rfl h1, iff_of_false (by simp) (by push_neg; intro; linarith),
        iff_of_false (by simp) (by push_neg; intro; linarith),
        iff_of_false (by simp) (by push_neg; intro; linarith),
        iff_of_false (by simp) (by intro; linarith)⟩
    · exact ⟨iff_of_false (by simp) h1, iff_of_true rfl ⟨h2, by linarith⟩,
        iff_of_false (by simp) (by push_neg; intro; linarith),
        iff_of_false (by simp) (by push_neg; intro; linarith),
        iff_of_false (by simp) (by intro; linarith)⟩
    · exact ⟨iff_of_false (by simp) (by linarith), iff_of_false (by simp) (by push_neg; intro; linarith),
        iff_of_true rfl ⟨h3, by linarith⟩,
        iff_of_false (by simp) (by push_neg; intro; linarith),
        iff_of_false (by simp) (by intro; linarith)⟩
    · exact ⟨iff_of_false (by simp) (by linarith), iff_of_false (by simp) (by push_neg; intro; linarith),
        iff_of_false (by simp) (by push_neg; intro; linarith),
        iff_of_true rfl ⟨h4, by linarith⟩,
        iff_of_false (by simp) (by intro; linarith)⟩
    · exact ⟨iff_of_false (by simp) (by linarith), iff_of_false (by simp) (by push_neg; intro; linarith),
        iff_of_false (by simp) (by push_neg; intro; linarith),
        iff_of_false (by simp) (by push_neg; intro; linarith),
        iff_of_true rfl (by linarith)⟩
  have mono : ∀ u v : ℚ, u ≤ v →
      (get_recommendation u).rank ≤ (get_recommendation v).rank := by
    intro u v huv
    unfold get_recommendation
    split_ifs <;> simp [Recommendation.rank] <;> linarith
  obtain ⟨k1, k2, k3, k4, k5⟩ := key s
  exact ⟨k1, k2, k3, k4, k5, fun h => mono s t h⟩

/-- C2 witness: the theorem applied at scores 50 and 70. -/
theorem C2_witness :
    get_recommendation 50 = .hold ∧
    (get_recommendation 50).rank ≤ (get_recommendation 70).rank := by
  have h := C2_recommendation_thresholds 50 70 (by norm_num) (by norm_num) (by norm_num)
    (by norm_num)
  exact ⟨h.2.2.1.mpr ⟨by norm_num, by norm_num⟩, h.2.2.2.2.2 (by norm_num)⟩

/-- C4 counterexample: a present oscillator value of exactly 0 (below 25) is
Python-falsy, so `analysis.py._assess_risk` adds no 15 points for it; with
`debt_to_equity = 0.6` the code totals 10 points (LOW) where the claim's
formula totals 25 points (MEDIUM). -/
theorem C4_counterexample :
    assess_risk none (some 0.6) (some 0) none = .low ∧
    assessRiskClaim none (some 0.6) (some 0) none = .medium ∧
    assess_risk none (some 0.6) (some 0) none ≠ assessRiskClaim none (some 0.6) (some 0) none := by
  have e1 : assess_risk none (some 0.6) (some 0) none = .low := by
    norm_num [assess_risk, classifyRiskPoints, riskPoints, volRiskPoints, deRiskPoints,
      rsiRiskPoints, mcapRiskPoints]
  have e2 : assessRiskClaim none (some 0.6) (some 0) none = .medium := by
    norm_num [assessRiskClaim, classifyRiskPoints, riskPointsClaim, volRiskPoints, deRiskPoints,
      rsiRiskPointsClaim, mcapRiskPointsClaim]
  refine ⟨e1, e2, ?_⟩
  rw [e1, e2]
  exact fun h => RiskLevel.noConfusion h

/-- C4 (amended): the points-based risk assessor of `analysis.py` behaves as
the claim states — 30/20/10 points for volatility above 0.5/0.35/0.25, 20/10
for debt-to-equity above 1.0/0.5, 15 for an oscillator above 75 or below 25,
25/15 for a market cap below \$300M/\$2B, each missing input contributing 0,
classification `>60 → VERY_HIGH, >40 → HIGH, >20 → MEDIUM, else LOW`,
monotone in the points — PROVIDED a present oscillator or market-cap value
is nonzero: a stored value of exactly 0 is Python-falsy and is treated as
missing, contributing 0 points. -/
theorem C4_amended (vol de rsi mcap : Option ℚ)
    (hrsi : rsi ≠ some 0) (hmc : mcap ≠ some 0) :
    assess_risk vol de rsi mcap = assessRiskClaim vol de rsi mcap ∧
    riskPoints vol de rsi mcap =
      volRiskPoints vol + deRiskPoints de + rsiRiskPoints rsi + mcapRiskPoints mcap ∧
    (volRiskPoints none = 0 ∧ deRiskPoints none = 0 ∧ rsiRiskPoints none = 0 ∧
      mcapRiskPoints none = 0) ∧
    (∀ p q : ℕ, p ≤ q → (classifyRiskPoints p).rank ≤ (classifyRiskPoints q).rank) := by
  have h1 : rsiRiskPoints rsi = rsiRiskPointsClaim rsi := by
    rcases rsi with _ | r
    · rfl
    · have hr : r ≠ 0 := fun e => hrsi (by rw [e])
      simp [rsiRiskPoints, rsiRiskPointsClaim, hr]
  have h2 : mcapRiskPoints mcap = mcapRiskPointsClaim mcap := by
    rcases mcap with _ | m
    · rfl
    · have hm : m ≠ 0 := fun e => hmc (by rw [e])
      simp [mcapRiskPoints, mcapRiskPointsClaim, hm]
  refine ⟨?_, rfl, ⟨rfl, rfl, rfl, rfl⟩, ?_⟩
  · unfold assess_risk assessRiskClaim riskPoints riskPointsClaim
    rw [h1, h2]
  · intro p q hpq
    unfold classifyRiskPoints
    split_ifs <;> simp [RiskLevel.rank] <;> omega

/-- C4 witness: the theorem applied at volatility 0.3, debt-to-equity 0.7,
oscillator 80 and market cap \$1B (10+10+15+15 = 50 points, HIGH). -/
theorem C4_witness :
    assess_risk (some 0.3) (some 0.7) (some 80) (some 1000000000) =
      assessRiskClaim (some 0.3) (some 0.7) (some 80) (some 1000000000) ∧
    assessRiskClaim (some 0.3) (some 0.7) (some 80) (some 1000000000) = .high := by
  refine ⟨(C4_amended (some 0.3) (some 0.7) (some 80) (some 1000000000)
    (by simp) (by simp)).1, ?_⟩
  norm_num [assessRiskClaim, riskPointsClaim, classifyRiskPoints, volRiskPoints, deRiskPoints,
    rsiRiskPointsClaim, mcapRiskPointsClaim]

/-- C6 counterexample: a present but negative P/E (possible for a company
with negative earnings) is skipped by the code's `pe and pe > 0` test, but
the claim's wording applies the `pe_ratio < 15` upside adjustment: at
price 100, score 50, `pe = -5` the code returns 105.00 and the claim's
formula 110.25. -/
theorem C6_counterexample :
    calculate_target_price 100 (some (-5)) 50 = some 105 ∧
    targetPriceClaim 100 (some (-5)) 50 = some (441/4) ∧
    calculate_target_price 100 (some (-5)) 50 ≠ targetPriceClaim 100 (some (-5)) 50 := by
  refine ⟨?_, ?_, ?_⟩ <;>
    norm_num [calculate_target_price, targetPriceClaim, peAdjust, peAdjustClaim,
      scoreMultiplier, round2, roundHalfEven]

/-- C6 (amended): in `analysis.py`, `target_price` is None iff
`current_price = 0` (and the orchestrator passes `current_price = 0` exactly
when the price series is empty, giving the claimed iff); the band multiplier
and rounding are as the claim states; and the P/E adjustments apply when
`pe_ratio` is present AND POSITIVE — a present nonpositive `pe_ratio` is
Python-falsy / fails `pe > 0` and is treated as absent. -/
theorem C6_amended (cp : ℚ) (pe : Option ℚ) (s : ℚ)
    (hpe : pe = none ∨ ∃ p, pe = some p ∧ 0 < p) :
    (calculate_target_price cp pe s = none ↔ cp = 0) ∧
    calculate_target_price cp pe s = targetPriceClaim cp pe s ∧
    (∀ (symbol : String) (bars : List Bar) (f : Fundamentals) (env : TaEnv),
      ((analyzeStockPy symbol bars f env).target_price = none ↔
        bars = [] ∨ lastD (bars.map Bar.close) = 0)) := by
  have hadj : peAdjust pe (scoreMultiplier s) = peAdjustClaim pe (scoreMultiplier s) := by
    rcases hpe with h | ⟨p, hp, hpos⟩
    · rw [h]; rfl
    · rw [hp]
      simp [peAdjust, peAdjustClaim, hpos]
  refine ⟨?_, ?_, ?_⟩
  · unfold calculate_target_price
    split_ifs with h
    · simp [h]
    · simp [h]
  · unfold calculate_target_price targetPriceClaim
    rw [hadj]
  · intro symbol bars f env
    have htp : (analyzeStockPy symbol bars f env).target_price =
        calculate_target_price (if bars.isEmpty then 0 else lastD (bars.map Bar.close))
          f.pe_ratio
          (overallScore (fundScorePy f)
            (techOutPy (bars.map Bar.close) (bars.map Bar.volume) env).score
            (momOutPy (bars.map Bar.close) env.vol).score
            (sentOutPy (bars.map Bar.close) (bars.map Bar.volume) f.market_cap).score) := rfl
    rw [htp]
    by_cases he : bars.isEmpty
    · rw [if_pos he]
      unfold calculate_target_price
      rw [if_pos rfl]
      simp only [true_iff]
      exact Or.inl (List.isEmpty_iff.mp he)
    · rw [if_neg he]
      unfold calculate_target_price
      have hne : bars ≠ [] := fun e => he (by rw [e]; rfl)
      split_ifs with h
      · simp [h, hne]
      · simp [h, hne]

/-- C6 witness: the theorem applied at price 100, `pe = 10`, score 90
(STRONG_BUY band with the P/E upside: 100 x 1.25 x 1.05 = 131.25). -/
theorem C6_witness :
    (calculate_target_price 100 (some 10) 90 = none ↔ (100 : ℚ) = 0) ∧
    calculate_target_price 100 (some 10) 90 = targetPriceClaim 100 (some 10) 90 ∧
    calculate_target_price 100 (some 10) 90 = some (525/4) := by
  have h := C6_amended 100 (some 10) 90 (Or.inr ⟨10, rfl, by norm_num⟩)
  refine ⟨h.1, h.2.1, ?_⟩
  norm_num [calculate_target_price, peAdjust, scoreMultiplier, round2, roundHalfEven]

lemma qmean_nonneg (l : List ℚ) (h : ∀ x ∈ l, 0 ≤ x) : 0 ≤ qmean l := by
  unfold qmean
  exact div_nonneg (List.sum_nonneg h) (by positivity)

lemma completenessListPy_nonneg (nF nT nM nS : ℕ) :
    ∀ x ∈ completenessListPy nF nT nM nS, 0 ≤ x := by
  intro x hx
  unfold completenessListPy at hx
  simp only [List.mem_append] at hx
  rcases hx with ((hx | hx) | hx) | hx <;>
    [by_cases h : 0 < nF; by_cases h : 0 < nT; by_cases h : 0 < nM; by_cases h : 0 < nS] <;>
    simp [h] at hx <;>
    rw [hx] <;>
    positivity

/-- C5 counterexample: the code's completeness only averages over the
dimensions with a nonempty factor map.  With one fundamental factor and the
other three maps empty (and all four scores equal, so sigma = 0), the code
returns confidence 50 while the claim's four-dimension mean gives 42.5.  The
final conjunct shows that four equal dimension scores do give a zero
standard deviation, so the input is realizable. -/
theorem C5_counterexample :
    calculate_confidence 1 0 0 0 0 = 50 ∧
    confidenceClaim 1 0 0 0 0 = 85/2 ∧
    calculate_confidence 1 0 0 0 0 ≠ confidenceClaim 1 0 0 0 0 ∧
    qvariance [50, 50, 50, 50] = 0 := by
  refine ⟨?_, ?_, ?_, ?_⟩ <;>
    norm_num [calculate_confidence, confidenceClaim, completenessListPy, qmean, qvariance]

/-- C5 (amended): `analysis.py._calculate_confidence` equals the claimed
`0.6 x completeness + 0.4 x max(0, 100 - 2 sigma)` blend, clamped to
`[0,100]`, with completeness the mean of the per-dimension populated
fractions (out of 6/4/3/3, the last three capped at 100) — but only over the
dimensions whose factor map is nonempty; when every dimension has at least
one factor this coincides with the claim's mean over all four dimensions.
The result is always within `[0,100]`. -/
theorem C5_amended (nF nT nM nS : ℕ) (sigma : ℚ) :
    (0 < nF → 0 < nT → 0 < nM → 0 < nS →
      calculate_confidence nF nT nM nS sigma = confidenceClaim nF nT nM nS sigma) ∧
    0 ≤ calculate_confidence nF nT nM nS sigma ∧
    calculate_confidence nF nT nM nS sigma ≤ 100 := by
  refine ⟨?_, ?_, ?_⟩
  · intro hF hT hM hS
    have hl : completenessListPy nF nT nM nS =
        [(nF : ℚ) / 6 * 100, min ((nT : ℚ) / 4 * 100) 100, min ((nM : ℚ) / 3 * 100) 100,
          min ((nS : ℚ) / 3 * 100) 100] := by
      unfold completenessListPy
      simp [hF, hT, hM, hS]
    simp only [calculate_confidence, confidenceClaim, hl]
    rw [if_neg (List.cons_ne_nil _ _)]
    rw [eq_comm]
    apply max_eq_right
    apply le_min _ (by norm_num)
    have h0 : (0:ℚ) ≤ qmean [(nF : ℚ) / 6 * 100, min ((nT : ℚ) / 4 * 100) 100,
        min ((nM : ℚ) / 3 * 100) 100, min ((nS : ℚ) / 3 * 100) 100] := by
      apply qmean_nonneg
      intro x hx
      simp only [List.mem_cons, List.not_mem_nil, or_false] at hx
      rcases hx with hx | hx | hx | hx <;> rw [hx] <;> positivity
    have hagr : (0:ℚ) ≤ max 0 (100 - sigma * 2) := le_max_left 0 _
    nlinarith
  · simp only [calculate_confidence]
    have hbase : (0:ℚ) ≤ if completenessListPy nF nT nM nS = [] then 50
        else qmean (completenessListPy nF nT nM nS) := by
      split_ifs with h
      · norm_num
      · exact qmean_nonneg _ (completenessListPy_nonneg nF nT nM nS)
    have hagr : (0:ℚ) ≤ max 0 (100 - sigma * 2) := le_max_left 0 _
    apply le_min _ (by norm_num)
    nlinarith
  · simp only [calculate_confidence]
    exact min_le_right _ _

/-- C5 witness: the theorem applied at one factor per dimension and
sigma = 5 (both formulas give 52.25). -/
theorem C5_witness :
    calculate_confidence 1 1 1 1 5 = confidenceClaim 1 1 1 1 5 ∧
    calculate_confidence 1 1 1 1 5 = 209/4 := by
  refine ⟨(C5_amended 1 1 1 1 5).1 (by norm_num) (by norm_num) (by norm_num) (by norm_num), ?_⟩
  have hl : completenessListPy 1 1 1 1 = [50/3, 25, 100/3, 100/3] := by
    norm_num [completenessListPy]
  simp only [calculate_confidence, hl]
  rw [if_neg (List.cons_ne_nil _ _)]
  norm_num [qmean, min_def]

/-- C3 counterexample: in the extension's `_analyze_fundamentals` an absent
field is NOT skipped — it receives a default sub-score (40 for `pe_score`,
50 for the other six) — so the all-absent snapshot scores
round((40 + 6 x 50)/7, 2) = 48.57 with a 7-entry factor map, not 50.0 with
an empty one. -/
theorem C3_counterexample :
    fundScoreExt {} = 4857/100 ∧
    (fundFactorsExt {}).map Prod.snd = [40, 50, 50, 50, 50, 50, 50] ∧
    fundScoreExt ({} : Fundamentals) ≠ 50 ∧
    fundFactorsExt ({} : Fundamentals) ≠ [] := by
  refine ⟨?_, ?_, ?_, ?_⟩
  · norm_num [fundScoreExt, fundFactorsExt, qmean, round2, roundHalfEven]
  · norm_num [fundFactorsExt]
  · norm_num [fundScoreExt, fundFactorsExt, qmean, round2, roundHalfEven]
  · simp only [fundFactorsExt]
    exact List.cons_ne_nil _ _

/-- C3 (amended): the claim holds of `analysis.py.calculate_fundamental_score`
— an all-absent snapshot yields score exactly 50.0 with an empty factor map,
an absent (or Python-falsy / nonpositive, for the fields so guarded) field
contributes no sub-score entry at all, and the score is the arithmetic mean
of the computed sub-scores alone.  The extension's `_analyze_fundamentals`
instead substitutes default sub-scores (pe 40, the others 50) for absent
fields, so its factor map always has 7 entries. -/
theorem C3_amended (f : Fundamentals) :
    (fundFactorsPy ({} : Fundamentals) = [] ∧ fundScorePy ({} : Fundamentals) = 50) ∧
    (f.pe_ratio = none → "pe_score" ∉ (fundFactorsPy f).map Prod.fst) ∧
    (f.price_to_book = none → "pb_score" ∉ (fundFactorsPy f).map Prod.fst) ∧
    (f.return_on_equity = none → "roe_score" ∉ (fundFactorsPy f).map Prod.fst) ∧
    (f.debt_to_equity = none → "de_score" ∉ (fundFactorsPy f).map Prod.fst) ∧
    (f.profit_margin = none → "pm_score" ∉ (fundFactorsPy f).map Prod.fst) ∧
    (fundFactorsPy f ≠ [] → fundScorePy f = qmean ((fundFactorsPy f).map Prod.snd)) ∧
    (fundFactorsExt f).length = 7 := by
  refine ⟨⟨rfl, rfl⟩, ?_, ?_, ?_, ?_, ?_, ?_, rfl⟩
  · intro h
    unfold fundFactorsPy
    rcases hb : f.price_to_book with _ | v2 <;> rcases hr : f.return_on_equity with _ | v3 <;>
      rcases hd : f.debt_to_equity with _ | v4 <;> rcases hp : f.profit_margin with _ | v5 <;>
      simp [h, hb, hr, hd, hp]
  · intro h
    unfold fundFactorsPy
    rcases hb : f.pe_ratio with _ | v2 <;> rcases hr : f.return_on_equity with _ | v3 <;>
      rcases hd : f.debt_to_equity with _ | v4 <;> rcases hp : f.profit_margin with _ | v5 <;>
      simp [h, hb, hr, hd, hp]
  · intro h
    unfold fundFactorsPy
    rcases hb : f.pe_ratio with _ | v2 <;> rcases hr : f.price_to_book with _ | v3 <;>
      rcases hd : f.debt_to_equity with _ | v4 <;> rcases hp : f.profit_margin with _ | v5 <;>
      simp [h, hb, hr, hd, hp]
  · intro h
    unfold fundFactorsPy
    rcases hb : f.pe_ratio with _ | v2 <;> rcases hr : f.price_to_book with _ | v3 <;>
      rcases hd : f.return_on_equity with _ | v4 <;> rcases hp : f.profit_margin with _ | v5 <;>
      simp [h, hb, hr, hd, hp]
  · intro h
    unfold fundFactorsPy
    rcases hb : f.pe_ratio with _ | v2 <;> rcases hr : f.price_to_book with _ | v3 <;>
      rcases hd : f.return_on_equity with _ | v4 <;> rcases hp : f.debt_to_equity with _ | v5 <;>
      simp [h, hb, hr, hd, hp]
  · intro h
    unfold fundScorePy
    rw [if_neg (by simpa using h)]

/-- C3 witness: the theorem applied at a snapshot whose only present field
is `debt_to_equity = 0.8` (one sub-score, 50; absent P/E contributes no
entry). -/
theorem C3_witness :
    "pe_score" ∉ (fundFactorsPy { debt_to_equity := some 0.8 }).map Prod.fst ∧
    fundScorePy { debt_to_equity := some 0.8 } =
      qmean ((fundFactorsPy { debt_to_equity := some 0.8 }).map Prod.snd) ∧
    fundScorePy { debt_to_equity := some 0.8 } = 50 := by
  have h := C3_amended { debt_to_equity := some 0.8 }
  refine ⟨h.2.1 rfl, h.2.2.2.2.2.2.1 (by norm_num [fundFactorsPy]), ?_⟩
  norm_num [fundScorePy, fundFactorsPy, deScore, qmean]

lemma techOutPy_addedCols_eq (closes volumes : List ℚ) (env : TaEnv) :
    (techOutPy closes volumes env).addedCols = techAddedColsPy env.hasTA closes.length := by
  unfold techOutPy techAddedColsPy
  by_cases h : closes.length < 20 <;> simp [h]

/-- C7 counterexample: the source's chained comparison
`current_price > sma_20 > sma_50` is NOT "above both MAs": with close 100,
MA20 = 90, MA50 = 95 the close is above both moving averages, yet the code
scores 65 (the second branch), not the claimed 80. -/
theorem C7_counterexample :
    maScoreChain 100 90 95 = 65 ∧ maScoreClaim 100 90 95 = 80 ∧
    maScoreChain 100 90 95 ≠ maScoreClaim 100 90 95 := by
  refine ⟨?_, ?_, ?_⟩ <;> norm_num [maScoreChain, maScoreClaim]

/-- C7 (amended): the extension's moving-average sub-score is 80 when
`close > MA20 > MA50` (a chained comparison, so the short MA must also be
above the medium MA), 65 when the close is above the short MA otherwise, 20
when `close < MA20 < MA50`, and 45 in all remaining cases; and for a price
series of fewer than 20 bars `analysis.py.calculate_technical_score` returns
the neutral default 50.0 with an empty indicator map (and adds no columns to
the frame). -/
theorem C7_amended (p m20 m50 : ℚ) (closes volumes : List ℚ) (env : TaEnv)
    (hlt : closes.length < 20) :
    (p > m20 ∧ m20 > m50 → maScoreChain p m20 m50 = 80) ∧
    (p > m20 ∧ ¬m20 > m50 → maScoreChain p m20 m50 = 65) ∧
    (p < m20 ∧ m20 < m50 → maScoreChain p m20 m50 = 20) ∧
    (¬p > m20 ∧ ¬(p < m20 ∧ m20 < m50) → maScoreChain p m20 m50 = 45) ∧
    techOutPy closes volumes env = ⟨50, 0, none, []⟩ := by
  refine ⟨?_, ?_, ?_, ?_, ?_⟩
  · intro h
    unfold maScoreChain
    rw [if_pos h]
  · intro h
    unfold maScoreChain
    rw [if_neg (fun hc => h.2 hc.2), if_pos h.1]
  · intro h
    unfold maScoreChain
    have hnp : ¬p > m20 := by linarith [h.1]
    rw [if_neg (fun hc => hnp hc.1), if_neg hnp, if_pos h]
  · intro h
    unfold maScoreChain
    rw [if_neg (fun hc => h.1 hc.1), if_neg h.1, if_neg h.2]
  · unfold techOutPy
    rw [if_pos hlt]

/-- C7 witness: the theorem applied at close 5, MA20 = 4, MA50 = 3 (bullish
alignment, 80) and at a 10-bar series for the neutral default. -/
theorem C7_witness :
    maScoreChain 5 4 3 = 80 ∧
    techOutPy (List.replicate 10 100) (List.replicate 10 1000) {} = ⟨50, 0, none, []⟩ := by
  have h := C7_amended 5 4 3 (List.replicate 10 100) (List.replicate 10 1000) {} (by simp)
  exact ⟨h.1 ⟨by norm_num, by norm_num⟩, h.2.2.2.2⟩

/-- C9 counterexample: `analysis.py.calculate_technical_score` mutates the
caller's DataFrame: on a 200-bar series (even with the `ta` library absent)
it assigns the `ma20`, `ma50` and `ma200` indicator columns into
`price_df`. -/
theorem C9_counterexample :
    (techOutPy (List.replicate 200 (100:ℚ)) (List.replicate 200 (1000:ℚ))
      { hasTA := false }).addedCols = ["ma20", "ma50", "ma200"] ∧
    (techOutPy (List.replicate 200 (100:ℚ)) (List.replicate 200 (1000:ℚ))
      { hasTA := false }).addedCols ≠ [] := by
  have h : (techOutPy (List.replicate 200 (100:ℚ)) (List.replicate 200 (1000:ℚ))
      { hasTA := false }).addedCols = ["ma20", "ma50", "ma200"] := by
    rw [techOutPy_addedCols_eq]
    norm_num [techAddedColsPy]
  refine ⟨h, ?_⟩
  rw [h]
  exact List.cons_ne_nil _ _

/-- C9 (amended): the extension's technical scorer works on a copy and never
mutates the caller's frame; `analysis.py.calculate_technical_score`, by
contrast, adds the `ma20`/`ma50`/`ma200` columns to the caller's DataFrame
from 200 bars on and an `rsi` column whenever the `ta` library is importable
(from 20 bars on); below 20 bars, or below 200 bars without `ta`, it leaves
the caller's frame unchanged.  (No scorer mutates the fundamentals
mapping, which is only ever read.) -/
theorem C9_amended (n : ℕ) (hasTA : Bool) (closes volumes : List ℚ) (env : TaEnv) :
    techAddedColsExt n = [] ∧
    (closes.length < 20 → (techOutPy closes volumes env).addedCols = []) ∧
    (env.hasTA = false → closes.length < 200 →
      (techOutPy closes volumes env).addedCols = []) ∧
    (¬n < 20 → 200 ≤ n →
      techAddedColsPy hasTA n = ["ma20", "ma50", "ma200"] ++ (if hasTA then ["rsi"] else [])) ∧
    (¬n < 20 → ¬200 ≤ n → techAddedColsPy hasTA n = (if hasTA then ["rsi"] else [])) := by
  refine ⟨rfl, ?_, ?_, ?_, ?_⟩
  · intro h
    rw [techOutPy_addedCols_eq]
    unfold techAddedColsPy
    rw [if_pos h]
  · intro hta hlen
    rw [techOutPy_addedCols_eq]
    unfold techAddedColsPy
    split_ifs with h1 h2 h3 <;> simp_all <;> omega
  · intro h1 h2
    unfold techAddedColsPy
    rw [if_neg h1, if_pos h2]
  · intro h1 h2
    unfold techAddedColsPy
    rw [if_neg h1, if_neg h2]
    simp

/-- C9 witness: the theorem applied at a 50-bar series without the `ta`
library (no columns added) and at n = 250 with `ta` (four columns added). -/
theorem C9_witness :
    (techOutPy (List.replicate 50 (100:ℚ)) (List.replicate 50 (1000:ℚ))
      { hasTA := false }).addedCols = [] ∧
    techAddedColsPy true 250 = ["ma20", "ma50", "ma200"] ++ ["rsi"] := by
  have h := C9_amended 250 true (List.replicate 50 (100:ℚ)) (List.replicate 50 (1000:ℚ))
    { hasTA := false }
  refine ⟨h.2.2.1 rfl (by simp), ?_⟩
  have h4 := h.2.2.2.1 (by norm_num) (by norm_num)
  rw [h4]
  simp

/-- C8 counterexample: the extension's `analyze_stock` reads
`stock_data['symbol']` outside its `try` block (line 97), so an input
without a `'symbol'` key raises `KeyError` to the caller instead of
returning an AnalysisResult. -/
theorem C8_counterexample :
    analyzeStockExtE { symbol := none, bars := sampleBars50 } {} = .error .keyError := rfl

/-- C8 (amended): `analysis.py.analyze_stock` returns a result for every
input (its whole body is inside `try/except Exception`, and the symbol is
read with a `.get` default); the extension's `analyze_stock` returns a
result for every input that carries a `'symbol'` key, but raises `KeyError`
when that key is missing. -/
theorem C8_amended (inp : AnalysisInput) (env : TaEnv) :
    (∃ r, analyzeStockPyE inp env = .ok r) ∧
    (inp.symbol.isSome → ∃ r, analyzeStockExtE inp env = .ok r) ∧
    (inp.symbol = none → analyzeStockExtE inp env = .error .keyError) := by
  refine ⟨⟨_, rfl⟩, ?_, ?_⟩
  · intro hs
    rcases ho : inp.symbol with _ | s
    · rw [ho] at hs; simp at hs
    · exact ⟨_, by unfold analyzeStockExtE; rw [ho]⟩
  · intro hs
    unfold analyzeStockExtE
    rw [hs]

/-- C8 witness: the theorem applied at an input that does carry a symbol
key. -/
theorem C8_witness :
    ∃ r, analyzeStockExtE { symbol := some "AAPL", bars := sampleBars50 } {} = .ok r := by
  exact (C8_amended { symbol := some "AAPL", bars := sampleBars50 } {}).2.1 rfl

/-- C1 counterexample: the extension's `analyze_stock` validation branches
return the INITIAL result record, whose `overall_score` is 0.0 — not the
claimed 50.0 — with the error field set. -/
theorem C1_counterexample :
    (analyzeStockExt "X" [] {} {}).error = some .noPriceData ∧
    (analyzeStockExt "X" [] {} {}).overall_score = 0 ∧
    (analyzeStockExt "X" [] {} {}).overall_score ≠ 50 := by
  refine ⟨rfl, rfl, ?_⟩
  have h0 : (analyzeStockExt "X" [] {} {}).overall_score = 0 := rfl
  rw [h0]
  norm_num

/-- C1 (amended): the extension's `analyze_stock` returns the
"no price data" error result on an empty series and the "insufficient price
data" error result below 50 bars; in both error cases the result is the
initialized record — overall_score 0.0 (not 50.0), recommendation HOLD — and
is independent of the fundamentals and of every indicator value, so none of
the four dimension scorers affects it; with 50 or more bars the error field
is null. -/
theorem C1_amended (symbol : String) (bars : List Bar) (f f2 : Fundamentals)
    (env env2 : TaEnv) :
    (bars = [] → analyzeStockExt symbol bars f env = errorResultExt symbol .noPriceData) ∧
    (bars ≠ [] → bars.length < 50 →
      analyzeStockExt symbol bars f env = errorResultExt symbol .insufficientPriceData) ∧
    (bars.length < 50 → analyzeStockExt symbol bars f env = analyzeStockExt symbol bars f2 env2) ∧
    ((errorResultExt symbol .noPriceData).overall_score = 0 ∧
      (errorResultExt symbol .noPriceData).recommendation = .hold ∧
      (errorResultExt symbol .insufficientPriceData).overall_score = 0 ∧
      (errorResultExt symbol .insufficientPriceData).recommendation = .hold) ∧
    (50 ≤ bars.length → (analyzeStockExt symbol bars f env).error = none) := by
  refine ⟨?_, ?_, ?_, ⟨rfl, rfl, rfl, rfl⟩, ?_⟩
  · intro h
    subst h
    rfl
  · intro h1 h2
    unfold analyzeStockExt
    rw [if_neg (by simp [h1]), if_pos h2]
  · intro hlen
    by_cases he : bars = []
    · subst he
      rfl
    · have key : ∀ (g : Fundamentals) (e2 : TaEnv),
          analyzeStockExt symbol bars g e2 = errorResultExt symbol .insufficientPriceData := by
        intro g e2
        unfold analyzeStockExt
        rw [if_neg (by simp [he]), if_pos hlen]
      rw [key f env, key f2 env2]
  · intro h
    have hne : bars ≠ [] := by
      intro e
      subst e
      simp at h
    unfold analyzeStockExt
    rw [if_neg (by simp [hne]), if_neg (by omega)]

/-- C1 witness: the theorem applied at a 10-bar series (insufficient-data
error) and at a 50-bar series (no error). -/
theorem C1_witness :
    analyzeStockExt "A" sampleBars10 {} {} = errorResultExt "A" .insufficientPriceData ∧
    (analyzeStockExt "A" sampleBars50 {} {}).error = none := by
  refine ⟨(C1_amended "A" sampleBars10 {} {} {} {}).2.1 (by simp [sampleBars10])
    (by simp [sampleBars10]), (C1_amended "A" sampleBars50 {} {} {} {}).2.2.2.2
    (by simp [sampleBars50])⟩

/-- C10: every dimension score of both modules lies in `[10, 90]` whatever
the inputs — the sub-score tables only produce values in `[10, 90]`, the one
volatility-degraded momentum sub-score of `analysis.py` (0.8 times the most
recent sub-score, which is at least 20) stays at least 16, a dimension with
no computable sub-scores defaults to 50.0, and a mean (rounded or not) of
such values stays in the interval — and consequently, with the default
0.4/0.3/0.2/0.1 weights, the unrounded overall score of either module also
lies in `[10, 90]`, strictly inside the advertised `[0, 100]`. -/
theorem C10_scores_in_10_90 (f : Fundamentals) (closes volumes : List ℚ) (env : TaEnv)
    (vol volPct : ℚ) (mcap : Option ℚ) :
    (10 ≤ fundScorePy f ∧ fundScorePy f ≤ 90) ∧
    (10 ≤ fundScoreExt f ∧ fundScoreExt f ≤ 90) ∧
    (10 ≤ (techOutPy closes volumes env).score ∧ (techOutPy closes volumes env).score ≤ 90) ∧
    (10 ≤ (techOutExt closes volumes env).score ∧ (techOutExt closes volumes env).score ≤ 90) ∧
    (10 ≤ (momOutPy closes vol).score ∧ (momOutPy closes vol).score ≤ 90) ∧
    (10 ≤ momScoreExt closes volPct ∧ momScoreExt closes volPct ≤ 90) ∧
    (10 ≤ (sentOutPy closes volumes mcap).score ∧ (sentOutPy closes volumes mcap).score ≤ 90) ∧
    (10 ≤ sentScoreExt closes volumes f ∧ sentScoreExt closes volumes f ≤ 90) ∧
    ((momFactorsPy closes vol).all (fun x => decide (16 ≤ x ∧ x ≤ 90)) = true) ∧
    (10 ≤ overallScore (fundScorePy f) (techOutPy closes volumes env).score
        (momOutPy closes vol).score (sentOutPy closes volumes mcap).score ∧
      overallScore (fundScorePy f) (techOutPy closes volumes env).score
        (momOutPy closes vol).score (sentOutPy closes volumes mcap).score ≤ 90) ∧
    (10 ≤ overallScore (fundScoreExt f) (techOutExt closes volumes env).score
        (momScoreExt closes volPct) (sentScoreExt closes volumes f) ∧
      overallScore (fundScoreExt f) (techOutExt closes volumes env).score
        (momScoreExt closes volPct) (sentScoreExt closes volumes f) ≤ 90) := by
  have h1 := fundScorePy_bounds f
  have h2 := fundScoreExt_bounds f
  have h3 := techOutPy_score_bounds closes volumes env
  have h4 := techOutExt_score_bounds closes volumes env
  have h5 := momOutPy_score_bounds closes vol
  have h5b : 10 ≤ (momOutPy closes vol).score ∧ (momOutPy closes vol).score ≤ 90 :=
    ⟨by linarith [h5.1], by linarith [h5.2]⟩
  have h6 := momScoreExt_bounds closes volPct
  have h7 := sentOutPy_score_bounds closes volumes mcap
  have h8 := sentScoreExt_bounds closes volumes f
  refine ⟨h1, h2, h3, h4, h5b, h6, h7, h8, ?_, overallScore_bounds _ _ _ _ h1 h3 h5b h7,
    overallScore_bounds _ _ _ _ h2 h4 h6 h8⟩
  simp only [List.all_eq_true, decide_eq_true_eq]
  intro x hx
  have hb := momFactorsPy_bounds closes vol x hx
  exact ⟨hb.1, by linarith [hb.2]⟩

end WealthSystem
